import Mathlib

/-!
Verification development for the CodeJournal session-capture and journal
persistence engine.  The definitions below are shallow embeddings of the
TypeScript sources:

* `src/journalManager.ts`   — journal write path (`formatSummaryForJournal`,
  `updateJournalFile`);
* `src/journalTreeView.ts`  — journal parse path (`parseJournalContent`),
  path normalization (`normalizeFilePath`), the by-file projection
  (`getFilesByMode`) and the line locator (`calculateEditLineNumber`);
* `changeTracker.ts`        — the `ChangeTracker` event handlers and the
  content cache;
* `sessions.ts`             — the `SessionController` state machine;
* `summarizer.ts`           — the guard chain of `Summarizer.summarizeSession`.

JavaScript string primitives (`split`, `startsWith`, `substring`, `trim`,
first-occurrence `replace`, and the change-line regular expression) are
modelled explicitly so that every parsing step matches the JS semantics.
-/

namespace CodeJournal

/-! ### JavaScript string primitives -/

/-- JS `s.startsWith(pre)`. -/
def jsStartsWith (s pre : String) : Bool :=
  pre.data.isPrefixOf s.data

/-- JS `s.substring(n)` (all characters here are in the BMP, so code-unit
indices coincide with character indices). -/
def jsDropChars (s : String) (n : Nat) : String :=
  ⟨s.data.drop n⟩

/-- Character-list version of JS `s.split("\n")`: splits at every newline and
keeps empty segments (so `""` yields `[[]]`). -/
def splitNlCh : List Char → List (List Char)
  | [] => [[]]
  | c :: rest =>
    if c = '\n' then [] :: splitNlCh rest
    else
      match splitNlCh rest with
      | [] => [[c]]
      | l :: ls => (c :: l) :: ls

/-- JS `s.split("\n")`. -/
def splitNl (s : String) : List String :=
  (splitNlCh s.data).map (fun l => ⟨l⟩)

/-- Whitespace characters removed by JS `String.prototype.trim`. -/
def isJsWhitespace (c : Char) : Bool :=
  c = ' ' || c = '\t' || c = '\n' || c = '\u000b' || c = '\u000c' ||
  c = '\r' || c = '\u00a0' || c = '\u1680' ||
  ('\u2000' ≤ c && c ≤ '\u200a') ||
  c = '\u2028' || c = '\u2029' || c = '\u202f' || c = '\u205f' ||
  c = '\u3000' || c = '\ufeff'

/-- JS `s.trim()`. -/
def jsTrim (s : String) : String :=
  ⟨(s.data.dropWhile isJsWhitespace).reverse.dropWhile isJsWhitespace |>.reverse⟩

/-- Locate the first occurrence of `pat` in a character list, returning the
part before it and the part after it. -/
def findSplit (pat : List Char) : List Char → Option (List Char × List Char)
  | [] => if pat.isPrefixOf ([] : List Char) then some ([], []) else none
  | c :: rest =>
    if pat.isPrefixOf (c :: rest) then some ([], (c :: rest).drop pat.length)
    else (findSplit pat rest).map (fun pr => (c :: pr.1, pr.2))

/-- JS `s.replace(pat, repl)` with a string pattern: replaces only the first
occurrence, and returns `s` unchanged when `pat` does not occur. -/
def jsReplaceFirst (s pat repl : String) : String :=
  match findSplit pat.data s.data with
  | none => s
  | some pr => ⟨pr.1⟩ ++ repl ++ ⟨pr.2⟩

/-- JS line-terminator characters (not matched by `.` in a regex). -/
def isJsLineTerm (c : Char) : Bool :=
  c = '\n' || c = '\r' || c = '\u2028' || c = '\u2029'

/-- Character-list version of the change-line regular expression
`^- \*\*([^*]+)\*\* (.+)$` from `journalTreeView.ts`: on success returns the
captured `(timestamp, description)` pair. -/
def matchChangeCh : List Char → Option (List Char × List Char)
  | '-' :: ' ' :: '*' :: '*' :: rest =>
    let ts := rest.takeWhile (fun c => c != '*')
    match ts, rest.dropWhile (fun c => c != '*') with
    | _ :: _, '*' :: '*' :: ' ' :: desc =>
      if desc ≠ [] ∧ desc.all (fun c => !(isJsLineTerm c)) then some (ts, desc)
      else none
    | _, _ => none
  | _ => none

/-- String version of the change-line regular expression. -/
def matchChangeLine (s : String) : Option (String × String) :=
  (matchChangeCh s.data).map (fun pr => (⟨pr.1⟩, ⟨pr.2⟩))

/-! ### Journal data model (`journalTreeView.ts` interfaces) -/

/-- One parsed change line: `JournalChange` in `journalTreeView.ts`. -/
structure JournalChange where
  timestamp : String
  description : String
deriving Repr, DecidableEq

/-- One parsed file block: `JournalFile` in `journalTreeView.ts`. -/
structure JournalFile where
  filePath : String
  changes : List JournalChange
deriving Repr, DecidableEq

/-- One parsed session block: `JournalSession` in `journalTreeView.ts`. -/
structure JournalSession where
  title : String
  files : List JournalFile
deriving Repr, DecidableEq

/-! ### Journal write path (`journalManager.ts`) -/

/-- The text of one change line as written by `formatSummaryForJournal`. -/
def changeLine (c : JournalChange) : String :=
  "- **" ++ c.timestamp ++ "** " ++ c.description

/-- `JournalManager.formatSummaryForJournal`: formats one session block.
`startLabel` stands for the already-formatted start date (the result of the
`toISOString().replace(...)` chain applied to `summary.startTime`). -/
def formatSummaryForJournal (startLabel : String) (files : List JournalFile) : String :=
  files.foldl
    (fun output f =>
      output ++ "### " ++ f.filePath ++ "\n" ++
        f.changes.foldl (fun o c => o ++ changeLine c ++ "\n") "" ++ "\n")
    ("## Session " ++ startLabel ++ " UTC\n\n")

/-- The top header written by `updateJournalFile`. -/
def journalHeader : String := "# CodeJournal\n\n"

/-- `JournalManager.updateJournalFile`: combines one new formatted session
block with the existing file content (`none` = file absent). -/
def updateJournal (existing : Option String) (summaryEntry : String) : String :=
  match existing with
  | none => journalHeader ++ summaryEntry
  | some existingContent =>
    if jsStartsWith existingContent "# CodeJournal" then
      "" ++ summaryEntry ++ jsReplaceFirst existingContent "# CodeJournal\n\n" ""
    else
      journalHeader ++ summaryEntry ++ existingContent

/-- Journal file content after a sequence of `addToJournal` calls starting
from an absent file.  The head of the list is the session written *last*
(so the list is in file order, newest first). -/
def writeAll : List (String × List JournalFile) → Option String
  | [] => none
  | e :: rest => some (updateJournal (writeAll rest) (formatSummaryForJournal e.1 e.2))

/-! ### Journal parse path (`JournalTreeDataProvider.parseJournalContent`) -/

/-- Parser state: the sessions already flushed, the pending session and the
pending file (`currentSession` / `currentFile` in the source). -/
structure PState where
  done : List JournalSession
  curS : Option JournalSession
  curF : Option JournalFile
deriving Repr, DecidableEq

/-- Push the pending file into the pending session
(`currentSession.files.push(currentFile)`). -/
def flushFileInto (s : JournalSession) : Option JournalFile → JournalSession
  | none => s
  | some f => { s with files := s.files ++ [f] }

/-- The flush performed at a session header and at end of input: the pending
file goes into the pending session, which in turn goes into the result
list. -/
def flushSessions (st : PState) : List JournalSession :=
  match st.curS with
  | none => st.done
  | some s => st.done ++ [flushFileInto s st.curF]

/-- One iteration of the `for (const line of lines)` loop of
`parseJournalContent`. -/
def parseLine (st : PState) (line : String) : PState :=
  if jsStartsWith line "## Session " then
    { done := flushSessions st
      curS := some ⟨jsDropChars line 3, []⟩
      curF := none }
  else
    match st.curS, jsStartsWith line "### " with
    | some s, true =>
      { done := st.done
        curS := some (flushFileInto s st.curF)
        curF := some ⟨jsDropChars line 4, []⟩ }
    | _, _ =>
      match st.curF, matchChangeLine line with
      | some f, some td =>
        { done := st.done
          curS := st.curS
          curF := some { f with changes := f.changes ++ [⟨td.1, td.2⟩] } }
      | _, _ => st

/-- `JournalTreeDataProvider.parseJournalContent`. -/
def parseJournalContent (content : String) : List JournalSession :=
  flushSessions ((splitNl content).foldl parseLine ⟨[], none, none⟩)

/-! ### Path normalization and the by-file view (`journalTreeView.ts`) -/

/-- `JournalTreeDataProvider.normalizeFilePath`; `root` is the workspace root
path (`none` = no workspace folder open). -/
def normalizeFilePath (root : Option String) (filePath : String) : String :=
  match root with
  | none => jsTrim filePath
  | some rootPath =>
    let cleanPath := jsTrim filePath
    if jsStartsWith cleanPath rootPath then
      jsDropChars cleanPath (rootPath.length + 1)
    else cleanPath

/-- The insertion-ordered set of normalized paths collected by
`getFilesByMode` (the keys of `filePathsMap`). -/
def collectNormalized (root : Option String) (sessions : List JournalSession) : List String :=
  sessions.foldl
    (fun acc s =>
      s.files.foldl
        (fun acc f =>
          let np := normalizeFilePath root f.filePath
          if acc.contains np then acc else acc ++ [np])
        acc)
    []

/-- `session.files.find(f => normalizeFilePath(f.filePath) === normalizedPath)`. -/
def sessionFileFind (root : Option String) (np : String) (s : JournalSession) :
    Option JournalFile :=
  s.files.find? (fun f => normalizeFilePath root f.filePath == np)

/-- The total change count computed by `getFilesByMode` for one normalized
path: for each session, the change count of the *first* file block matching
the normalized path. -/
def fileTotalChanges (root : Option String) (sessions : List JournalSession)
    (np : String) : Nat :=
  sessions.foldl
    (fun tot s =>
      match sessionFileFind root np s with
      | some f => tot + f.changes.length
      | none => tot)
    0

/-- `JournalTreeDataProvider.getFilesByMode`: each entry is the normalized
path together with the displayed total change count. -/
def getFilesByMode (root : Option String) (sessions : List JournalSession) :
    List (String × Nat) :=
  (collectNormalized root sessions).map
    (fun np => (np, fileTotalChanges root sessions np))

/-! ### Line locator (`JournalTreeDataProvider.calculateEditLineNumber`) -/

/-- Outcome of one iteration of the locator loop: a match at the current
line, the `break` taken when a different session header is met after the
matched one, or continuation with updated `foundSession` / `foundFile`
flags. -/
inductive LoopRes where
  | found
  | stop
  | next (fs ff : Bool)
deriving Repr, DecidableEq

/-- Locator loop body, fourth `if`: matching any change line when no session
title was supplied. -/
def calcBody4 (sessionTitle : Option String) (target : JournalChange)
    (line : String) (fs ff : Bool) : LoopRes :=
  if sessionTitle.isNone ∧ jsStartsWith line "- **" then
    match matchChangeLine line with
    | some td =>
      if td.1 = target.timestamp ∧ td.2 = target.description then .found
      else .next fs ff
    | none => .next fs ff
  else .next fs ff

/-- Locator loop body, third `if`: matching the change line inside the
matched session and file. -/
def calcBody3 (sessionTitle : Option String) (target : JournalChange)
    (line : String) (fs ff : Bool) : LoopRes :=
  if jsStartsWith line "- **" ∧ fs = true ∧ ff = true then
    match matchChangeLine line with
    | some td =>
      if td.1 = target.timestamp ∧ td.2 = target.description then .found
      else calcBody4 sessionTitle target line fs ff
    | none => calcBody4 sessionTitle target line fs ff
  else calcBody4 sessionTitle target line fs ff

/-- Locator loop body, second `if`: file headers inside the matched
session. -/
def calcBody2 (root : Option String) (sessionTitle filePath : Option String)
    (target : JournalChange) (line : String) (fs ff : Bool) : LoopRes :=
  match filePath, jsStartsWith line "### " && fs with
  | some fp, true =>
    if normalizeFilePath root (jsDropChars line 4) = normalizeFilePath root fp then
      .next fs true
    else if ff then calcBody3 sessionTitle target line fs false
    else calcBody3 sessionTitle target line fs ff
  | _, _ => calcBody3 sessionTitle target line fs ff

/-- Locator loop body, first `if`: session headers. -/
def calcBody1 (root : Option String) (sessionTitle filePath : Option String)
    (target : JournalChange) (line : String) (fs ff : Bool) : LoopRes :=
  match sessionTitle, jsStartsWith line "## Session " with
  | some t, true =>
    if jsDropChars line 3 = t then .next true ff
    else if fs then .stop
    else calcBody2 root sessionTitle filePath target line fs ff
  | _, _ => calcBody2 root sessionTitle filePath target line fs ff

/-- The `for` loop of `calculateEditLineNumber`, carrying the 0-based index
of the current line. -/
def calcLoop (root : Option String) (sessionTitle filePath : Option String)
    (target : JournalChange) : List String → Nat → Bool → Bool → Option Nat
  | [], _, _, _ => none
  | line :: rest, i, fs, ff =>
    match calcBody1 root sessionTitle filePath target line fs ff with
    | .found => some (i + 1)
    | .stop => none
    | .next fs' ff' => calcLoop root sessionTitle filePath target rest (i + 1) fs' ff'

/-- `JournalTreeDataProvider.calculateEditLineNumber`; `journal` is the live
journal file content (`none` = file absent). -/
def calculateEditLineNumber (root : Option String) (journal : Option String)
    (change : JournalChange) (sessionTitle filePath : Option String) : Option Nat :=
  match journal with
  | none => none
  | some content =>
    calcLoop root sessionTitle filePath change (splitNl content) 0 false false

/-! ### Change capture (`changeTracker.ts`) -/

/-- Kind-specific payload of a captured change (the four `Change` variants of
`changeTracker.ts`). -/
inductive ChangeKind where
  | save (oldContent newContent : String)
  | create (content : String)
  | delete (lastContent : String)
  | rename (newFilePath : String)
deriving Repr, DecidableEq

/-- A captured change (`BaseChange` plus the kind-specific payload). -/
structure Change where
  id : String
  timestamp : String
  filePath : String
  sessionId : Option String
  kind : ChangeKind
deriving Repr, DecidableEq

/-- JS `Map.get` on the content cache (unique keys, insertion order). -/
def mapGet (m : List (String × String)) (k : String) : Option String :=
  (m.find? (fun p => p.1 == k)).map (fun p => p.2)

/-- JS `Map.set`: overwrites in place, otherwise appends. -/
def mapSet (m : List (String × String)) (k v : String) : List (String × String) :=
  if m.any (fun p => p.1 == k) then
    m.map (fun p => if p.1 == k then (k, v) else p)
  else m ++ [(k, v)]

/-- JS `Map.delete`. -/
def mapDelete (m : List (String × String)) (k : String) : List (String × String) :=
  m.filter (fun p => p.1 != k)

/-- Mutable state of `ChangeTracker`: the accumulated change list and the
file content cache. -/
structure TrackerState where
  changes : List Change
  fileContentCache : List (String × String)
deriving Repr, DecidableEq

/-- `ChangeTracker.getChangesBySession` (a `===` filter on the tagged id; an
untagged change never matches). -/
def getChangesBySession (st : TrackerState) (sessionId : String) : List Change :=
  st.changes.filter (fun c => c.sessionId == some sessionId)

/-- `ChangeTracker.handleDocumentSave`.  `activeSession` is the id of the
current recording session (`none` when idle); `newId` / `newTimestamp` stand
for the generated change id and capture time. -/
def handleDocumentSave (activeSession : Option String) (st : TrackerState)
    (filePath newContent newId newTimestamp : String) : TrackerState :=
  let oldContent := (mapGet st.fileContentCache filePath).getD ""
  let changes :=
    if oldContent ≠ newContent ∧ activeSession.isSome then
      st.changes ++ [⟨newId, newTimestamp, filePath, activeSession,
        ChangeKind.save oldContent newContent⟩]
    else st.changes
  ⟨changes, mapSet st.fileContentCache filePath newContent⟩

/-- `ChangeTracker.handleFileCreate` for a single created file.
`readResult` is the outcome of `openTextDocument` (`none` = the read threw;
the handler catches it and records nothing for that file). -/
def handleFileCreate (activeSession : Option String) (st : TrackerState)
    (filePath : String) (readResult : Option String)
    (newId newTimestamp : String) : TrackerState :=
  match activeSession, readResult with
  | none, some content => ⟨st.changes, mapSet st.fileContentCache filePath content⟩
  | none, none => st
  | some sid, some content =>
    ⟨st.changes ++ [⟨newId, newTimestamp, filePath, some sid, ChangeKind.create content⟩],
     mapSet st.fileContentCache filePath content⟩
  | some _, none => st

/-- `ChangeTracker.handleFileDelete` for a single deleted file. -/
def handleFileDelete (activeSession : Option String) (st : TrackerState)
    (filePath newId newTimestamp : String) : TrackerState :=
  let lastContent := (mapGet st.fileContentCache filePath).getD ""
  let changes :=
    if activeSession.isSome then
      st.changes ++ [⟨newId, newTimestamp, filePath, activeSession,
        ChangeKind.delete lastContent⟩]
    else st.changes
  ⟨changes, mapDelete st.fileContentCache filePath⟩

/-- `ChangeTracker.handleFileRename` for a single renamed file.
`readResult` is the attempted read of the new path (`none` = the read threw
and the old cached content is kept as fallback). -/
def handleFileRename (activeSession : Option String) (st : TrackerState)
    (oldPath newPath : String) (readResult : Option String)
    (newId newTimestamp : String) : TrackerState :=
  let oldContent := (mapGet st.fileContentCache oldPath).getD ""
  let cache1 := mapDelete st.fileContentCache oldPath
  let cache2 := mapSet cache1 newPath (readResult.getD oldContent)
  let changes :=
    if activeSession.isSome then
      st.changes ++ [⟨newId, newTimestamp, oldPath, activeSession,
        ChangeKind.rename newPath⟩]
    else st.changes
  ⟨changes, cache2⟩

/-- One observable file-mutation notification dispatched to the tracker. -/
inductive TrackerEvent where
  | save (filePath newContent newId newTimestamp : String)
  | create (filePath : String) (readResult : Option String) (newId newTimestamp : String)
  | delete (filePath newId newTimestamp : String)
  | rename (oldPath newPath : String) (readResult : Option String) (newId newTimestamp : String)
deriving Repr, DecidableEq

/-- Dispatch of one event, given the session active at capture time. -/
def trackerStep (activeSession : Option String) (st : TrackerState) :
    TrackerEvent → TrackerState
  | .save fp txt i t => handleDocumentSave activeSession st fp txt i t
  | .create fp r i t => handleFileCreate activeSession st fp r i t
  | .delete fp i t => handleFileDelete activeSession st fp i t
  | .rename o n r i t => handleFileRename activeSession st o n r i t

/-- Run a trace of events, each paired with the session active when it
arrived. -/
def runTracker (st : TrackerState) : List (Option String × TrackerEvent) → TrackerState
  | [] => st
  | e :: rest => runTracker (trackerStep e.1 st e.2) rest

/-! ### Session lifecycle (`sessions.ts`) -/

/-- `Session` from `types.ts`. -/
structure Session where
  id : String
  startTime : String
  endTime : Option String
deriving Repr, DecidableEq

/-- `SessionController` state: the `sessions` array and `currentSession`,
which in the source is a *reference* to one of the array entries — modelled
as an index so that stamping `endTime` updates both views, exactly as the
shared mutable object does. -/
structure SessState where
  sessions : List Session
  currentIdx : Option Nat
deriving Repr, DecidableEq

/-- The object referenced by `this.currentSession`. -/
def currentSessionRaw (st : SessState) : Option Session :=
  st.currentIdx.bind (fun i => st.sessions[i]?)

/-- `SessionController.getCurrentSession`: the current session only while it
is still recording. -/
def getCurrentSession (st : SessState) : Option Session :=
  match currentSessionRaw st with
  | some s => if s.endTime = none then some s else none
  | none => none

/-- `SessionController.isSessionActive`. -/
def isSessionActive (st : SessState) : Bool :=
  (getCurrentSession st).isSome

/-- `SessionController.startSession`; `newId` / `newStartTime` stand for the
generated UUID and current time. -/
def startSession (st : SessState) (newId newStartTime : String) :
    Option Session × SessState :=
  if (currentSessionRaw st).isSome ∧ (currentSessionRaw st).bind Session.endTime = none then
    (none, st)
  else
    let s : Session := ⟨newId, newStartTime, none⟩
    (some s, ⟨st.sessions ++ [s], some st.sessions.length⟩)

/-! ### Summarizer (`summarizer.ts`) -/

/-- The `SummarizationError.type` taxonomy. -/
inductive SummErrorType where
  | apiError
  | networkError
  | tokenLimit
  | configError
  | unknownError
deriving Repr, DecidableEq

/-- `SummarizationError` (the optional `retryable` field is set explicitly on
every path modelled here). -/
structure SummarizationError where
  type : SummErrorType
  message : String
  retryable : Bool
deriving Repr, DecidableEq

/-- `SessionSummary` (per-file summaries share the `filePath`/`changes`
shape of `JournalFile`). -/
structure SessionSummary where
  sessionId : String
  startTime : String
  endTime : String
  files : List JournalFile
deriving Repr, DecidableEq

/-- Outcome of the external `generateObject` call: a structured result, a
result failing the `result.object.files` validation, or a thrown error as
classified by `handleAIError`. -/
inductive ExtCallResult where
  | ok (files : List JournalFile)
  | invalid
  | failure (e : SummarizationError)
deriving Repr, DecidableEq

/-- Result of `summarizeSession`, extended with whether the external
summarization call was actually initiated. -/
structure SummarizeResult where
  summary : Option SessionSummary
  error : Option SummarizationError
  externalCalled : Bool
deriving Repr, DecidableEq

/-- `Summarizer.summarizeSession`: the guard chain (disposed, active
session, empty change set, API key, model config, client init) followed by
the external call, whose outcome is the `external` oracle. -/
def summarizeSession (disposed : Bool) (session : Session) (changes : List Change)
    (apiKey : Option String) (modelConfigValid clientInitOk : Bool)
    (external : ExtCallResult) : SummarizeResult :=
  if disposed then
    ⟨none, some ⟨.configError, "Summarizer has been disposed", false⟩, false⟩
  else if session.endTime = none then
    ⟨none, some ⟨.configError, "Cannot summarize an active session", false⟩, false⟩
  else if changes = [] then
    ⟨none, some ⟨.configError, "No changes found in session", false⟩, false⟩
  else if (apiKey.map jsTrim).getD "" = "" then
    ⟨none, some ⟨.configError, "No Anthropic API key configured", false⟩, false⟩
  else if ¬ modelConfigValid then
    ⟨none, some ⟨.configError, "Invalid Anthropic model configured", false⟩, false⟩
  else if ¬ clientInitOk then
    ⟨none, some ⟨.configError, "Failed to initialize Anthropic client", false⟩, false⟩
  else
    match external with
    | .failure e => ⟨none, some e, true⟩
    | .invalid => ⟨none, some ⟨.apiError, "Invalid response format from AI service", true⟩, true⟩
    | .ok files =>
      ⟨some ⟨session.id, session.startTime, session.endTime.getD "", files⟩, none, true⟩

/-- Observable outcome of `SessionController.stopSession`. -/
structure StopResult where
  result : Option Session
  state : SessState
  summarizerCalled : Bool
  journalWritten : Bool
deriving Repr, DecidableEq

/-- `SessionController.stopSession`: guard, `endTime` stamp, pull of the
session-tagged changes, and — only when that set is non-empty — the
summarization/journal pipeline, whose outcome is the `oracle` parameter. -/
def stopSession (st : SessState) (tracker : TrackerState) (endTime : String)
    (oracle : SummarizeResult) : StopResult :=
  match getCurrentSession st with
  | none => ⟨none, st, false, false⟩
  | some s =>
    let stamped : Session := { s with endTime := some endTime }
    let st1 : SessState :=
      { st with sessions :=
          match st.currentIdx with
          | some i => st.sessions.set i stamped
          | none => st.sessions }
    let sessionChanges := getChangesBySession tracker s.id
    if sessionChanges.length > 0 then
      ⟨some stamped, st1, true, oracle.summary.isSome⟩
    else
      ⟨some stamped, st1, false, false⟩

/-- States of the `SessionController` reachable from construction through
`startSession` / `stopSession` calls. -/
inductive ReachableSess : SessState → Prop where
  | init : ReachableSess ⟨[], none⟩
  | start (st : SessState) (newId newStartTime : String) :
      ReachableSess st → ReachableSess (startSession st newId newStartTime).2
  | stop (st : SessState) (tracker : TrackerState) (endTime : String)
      (oracle : SummarizeResult) :
      ReachableSess st → ReachableSess (stopSession st tracker endTime oracle).state

/-- Number of recording sessions (entries with `endTime` unset). -/
def countRecording (st : SessState) : Nat :=
  st.sessions.countP (fun s => s.endTime == none)

/-! ### Derived notions used by the statements -/

/-- The lines of one file block as written by `formatSummaryForJournal`. -/
def fileLines (f : JournalFile) : List String :=
  ("### " ++ f.filePath) :: (f.changes.map changeLine ++ [""])

/-- The lines of one session block as written by
`formatSummaryForJournal`. -/
def sessionLines (startLabel : String) (files : List JournalFile) : List String :=
  ("## Session " ++ startLabel ++ " UTC") :: "" :: files.flatMap fileLines

/-- Concatenation of newline-terminated lines. -/
def termJoin : List String → String
  | [] => ""
  | l :: ls => l ++ "\n" ++ termJoin ls

/-- The string contains no newline (it fits on one journal line). -/
def noNl (s : String) : Prop := '\n' ∉ s.data

/-- A timestamp survives the change-line regular expression: non-empty, no
`*`, no line terminator. -/
def goodTimestamp (t : String) : Prop :=
  t.data ≠ [] ∧ ∀ c ∈ t.data, c ≠ '*' ∧ isJsLineTerm c = false

/-- A description survives the change-line regular expression: non-empty and
free of line terminators. -/
def goodDescription (d : String) : Prop :=
  d.data ≠ [] ∧ ∀ c ∈ d.data, isJsLineTerm c = false

/-- A change that the write/parse grammar round-trips. -/
def goodChange (c : JournalChange) : Prop :=
  goodTimestamp c.timestamp ∧ goodDescription c.description

/-- A file block that the write/parse grammar round-trips. -/
def goodFile (f : JournalFile) : Prop :=
  noNl f.filePath ∧ ∀ c ∈ f.changes, goodChange c

/-- A written session entry (start label plus file blocks) that the grammar
round-trips. -/
def goodEntry (e : String × List JournalFile) : Prop :=
  noNl e.1 ∧ ∀ f ∈ e.2, goodFile f

/-- The session a written entry parses back to: the title is the header line
minus `## `. -/
def entrySession (e : String × List JournalFile) : JournalSession :=
  ⟨"Session " ++ e.1 ++ " UTC", e.2⟩

/-- Controller invariant: any recording entry of the `sessions` array is the
one referenced by `currentSession`. -/
def SessInv (st : SessState) : Prop :=
  ∀ j s, st.sessions[j]? = some s → s.endTime = none → st.currentIdx = some j

instance (s : String) : Decidable (noNl s) := by unfold noNl; infer_instance

instance (t : String) : Decidable (goodTimestamp t) := by
  unfold goodTimestamp; infer_instance

instance (d : String) : Decidable (goodDescription d) := by
  unfold goodDescription; infer_instance

instance (c : JournalChange) : Decidable (goodChange c) := by
  unfold goodChange; infer_instance

instance (f : JournalFile) : Decidable (goodFile f) := by
  unfold goodFile; infer_instance

instance (e : String × List JournalFile) : Decidable (goodEntry e) := by
  unfold goodEntry; infer_instance

/-! ### Helper lemmas: the content cache as a JS `Map` -/

theorem mapGet_cons_pos {a : String × String} {t : List (String × String)} {k : String}
    (h : (a.1 == k) = true) : mapGet (a :: t) k = some a.2 := by
  simp [mapGet, List.find?_cons, h]

theorem mapGet_cons_neg {a : String × String} {t : List (String × String)} {k : String}
    (h : (a.1 == k) = false) : mapGet (a :: t) k = mapGet t k := by
  simp only [mapGet, List.find?_cons, h]

theorem mapGet_map_set (m : List (String × String)) (k v : String) :
    mapGet (m.map (fun p => if p.1 == k then (k, v) else p)) k =
      if m.any (fun p => p.1 == k) then some v else none := by
  induction m with
  | nil => simp [mapGet]
  | cons a t ih =>
    by_cases h : (a.1 == k) = true
    · simp only [List.map_cons, if_pos h, List.any_cons, h, Bool.true_or, if_true]
      exact mapGet_cons_pos (by simp)
    · have h' : (a.1 == k) = false := by simpa using h
      rw [List.map_cons, if_neg h, mapGet_cons_neg h']
      simp only [List.any_cons, h', Bool.false_or]
      exact ih

theorem mapGet_mapSet_self (m : List (String × String)) (k v : String) :
    mapGet (mapSet m k v) k = some v := by
  unfold mapSet
  by_cases h : m.any (fun p => p.1 == k)
  · rw [if_pos h, mapGet_map_set, if_pos h]
  · rw [if_neg h]
    have hn : m.find? (fun p => p.1 == k) = none := by
      rw [List.find?_eq_none]
      intro x hx hpx
      exact h (List.any_eq_true.mpr ⟨x, hx, hpx⟩)
    simp [mapGet, List.find?_append, hn, List.find?_cons]

theorem mapGet_map_set_ne (m : List (String × String)) (k v k2 : String)
    (hkk2 : (k == k2) = false) :
    mapGet (m.map (fun p => if p.1 == k then (k, v) else p)) k2 = mapGet m k2 := by
  induction m with
  | nil => rfl
  | cons a t ih =>
    by_cases hk : (a.1 == k) = true
    · have ha1 : a.1 = k := by simpa using hk
      have hak2 : (a.1 == k2) = false := by rw [ha1]; exact hkk2
      simp only [List.map_cons, if_pos hk]
      rw [mapGet_cons_neg (by simpa using hkk2), mapGet_cons_neg hak2]
      exact ih
    · have hk' : (a.1 == k) = false := by simpa using hk
      simp only [List.map_cons, if_neg hk]
      by_cases hp : (a.1 == k2) = true
      · rw [mapGet_cons_pos hp, mapGet_cons_pos hp]
      · have hp' : (a.1 == k2) = false := by simpa using hp
        rw [mapGet_cons_neg hp', mapGet_cons_neg hp']
        exact ih

theorem mapGet_mapSet_ne (m : List (String × String)) (k v k2 : String) (h : k2 ≠ k) :
    mapGet (mapSet m k v) k2 = mapGet m k2 := by
  have hkk2 : (k == k2) = false := by simpa using fun e => h e.symm
  unfold mapSet
  by_cases ha : m.any (fun p => p.1 == k)
  · rw [if_pos ha]
    exact mapGet_map_set_ne m k v k2 hkk2
  · rw [if_neg ha]
    simp [mapGet, List.find?_append, List.find?_cons, hkk2, Option.or_none]

theorem mapGet_mapDelete_self (m : List (String × String)) (k : String) :
    mapGet (mapDelete m k) k = none := by
  have : (mapDelete m k).find? (fun p => p.1 == k) = none := by
    rw [List.find?_eq_none]
    intro x hx
    have := (List.mem_filter.mp hx).2
    simpa [bne] using this
  simp [mapGet, this]

/-! ### Helper lemmas: change capture -/

theorem trackerStep_changes (act : Option String) (st : TrackerState) (e : TrackerEvent) :
    ∀ c ∈ (trackerStep act st e).changes,
      c ∈ st.changes ∨ (c.sessionId = act ∧ act.isSome = true) := by
  intro c hc
  cases e with
  | save fp txt i t =>
    simp only [trackerStep, handleDocumentSave] at hc
    split at hc
    · rcases List.mem_append.mp hc with h | h
      · exact Or.inl h
      · rcases List.mem_singleton.mp h with rfl
        rename_i hcond
        exact Or.inr ⟨rfl, hcond.2⟩
    · exact Or.inl hc
  | create fp r i t =>
    cases act with
    | none =>
      cases r <;> simp only [trackerStep, handleFileCreate] at hc <;> exact Or.inl hc
    | some sid =>
      cases r with
      | none => exact Or.inl hc
      | some content =>
        simp only [trackerStep, handleFileCreate] at hc
        rcases List.mem_append.mp hc with h | h
        · exact Or.inl h
        · rcases List.mem_singleton.mp h with rfl
          exact Or.inr ⟨rfl, rfl⟩
  | delete fp i t =>
    simp only [trackerStep, handleFileDelete] at hc
    split at hc
    · rcases List.mem_append.mp hc with h | h
      · exact Or.inl h
      · rcases List.mem_singleton.mp h with rfl
        rename_i hcond
        exact Or.inr ⟨rfl, hcond⟩
    · exact Or.inl hc
  | rename o n r i t =>
    simp only [trackerStep, handleFileRename] at hc
    split at hc
    · rcases List.mem_append.mp hc with h | h
      · exact Or.inl h
      · rcases List.mem_singleton.mp h with rfl
        rename_i hcond
        exact Or.inr ⟨rfl, hcond⟩
    · exact Or.inl hc

theorem runTracker_changes (tr : List (Option String × TrackerEvent)) :
    ∀ (st : TrackerState) (c : Change), c ∈ (runTracker st tr).changes →
      c ∈ st.changes ∨ ∃ sid, c.sessionId = some sid ∧ (some sid) ∈ tr.map Prod.fst := by
  induction tr with
  | nil => intro st c hc; exact Or.inl hc
  | cons e rest ih =>
    intro st c hc
    rcases ih _ c hc with h | ⟨sid, h1, h2⟩
    · rcases trackerStep_changes e.1 st e.2 c h with h2 | ⟨hsid, hsome⟩
      · exact Or.inl h2
      · obtain ⟨sid, hsid2⟩ := Option.isSome_iff_exists.mp hsome
        exact Or.inr ⟨sid, hsid.trans hsid2, by simp [hsid2]⟩
    · exact Or.inr ⟨sid, h1, by simp [h2]⟩

/-! ### Claim theorems -/

/-- C5: on a save event, if the saved text equals the cached text no Change
is emitted; if the texts differ and a session is active exactly one Save
Change is emitted, carrying the cached text as `oldContent` and the saved
text as `newContent`; and in every case the cache entry for the path becomes
the saved text.  (When the path was never cached, the compared "cached text"
is the empty string, per the `|| ''` fallback in `handleDocumentSave`.) -/
theorem save_event_contract (activeSession : Option String) (st : TrackerState)
    (filePath newContent newId newTimestamp : String) :
    (newContent = (mapGet st.fileContentCache filePath).getD "" →
      (handleDocumentSave activeSession st filePath newContent newId newTimestamp).changes
        = st.changes) ∧
    (newContent ≠ (mapGet st.fileContentCache filePath).getD "" →
      activeSession.isSome = true →
      (handleDocumentSave activeSession st filePath newContent newId newTimestamp).changes
        = st.changes ++ [⟨newId, newTimestamp, filePath, activeSession,
            ChangeKind.save ((mapGet st.fileContentCache filePath).getD "") newContent⟩]) ∧
    mapGet (handleDocumentSave activeSession st filePath newContent
        newId newTimestamp).fileContentCache filePath = some newContent := by
  refine ⟨?_, ?_, ?_⟩
  · intro h
    simp [handleDocumentSave, ← h]
  · intro h hs
    simp [handleDocumentSave, Ne.symm h, hs]
  · simp [handleDocumentSave, mapGet_mapSet_self]

/-- Witness for C5 at a concrete input: saving `"new"` over cached `"old"`
during session `"s"` appends exactly the expected Save Change and updates
the cache. -/
theorem save_event_contract_witness :
    (("new" : String) ≠ (mapGet (TrackerState.mk [] [("p", "old")]).fileContentCache "p").getD "") ∧
    (handleDocumentSave (some "s") (TrackerState.mk [] [("p", "old")]) "p" "new" "i" "ts").changes
      = [] ++ [⟨"i", "ts", "p", some "s",
          ChangeKind.save ((mapGet (TrackerState.mk [] [("p", "old")]).fileContentCache "p").getD "") "new"⟩] ∧
    mapGet (handleDocumentSave (some "s") (TrackerState.mk [] [("p", "old")])
        "p" "new" "i" "ts").fileContentCache "p" = some "new" :=
  ⟨by decide,
   (save_event_contract (some "s") (TrackerState.mk [] [("p", "old")]) "p" "new" "i" "ts").2.1
     (by decide) rfl,
   (save_event_contract (some "s") (TrackerState.mk [] [("p", "old")]) "p" "new" "i" "ts").2.2⟩

/-- C8: on a rename event the cache entry moves from the old path to the new
path — the new value is the live file content when the read succeeds,
otherwise the previously cached content — and exactly one Rename Change
(`filePath` = old path, `newFilePath` = new path) is emitted if and only if
a session is active. -/
theorem rename_event_contract (activeSession : Option String) (st : TrackerState)
    (oldPath newPath : String) (readResult : Option String)
    (newId newTimestamp : String) :
    mapGet (handleFileRename activeSession st oldPath newPath readResult
        newId newTimestamp).fileContentCache newPath
      = some (readResult.getD ((mapGet st.fileContentCache oldPath).getD "")) ∧
    (oldPath ≠ newPath →
      mapGet (handleFileRename activeSession st oldPath newPath readResult
          newId newTimestamp).fileContentCache oldPath = none) ∧
    (handleFileRename activeSession st oldPath newPath readResult
        newId newTimestamp).changes
      = (if activeSession.isSome then
          st.changes ++ [⟨newId, newTimestamp, oldPath, activeSession,
            ChangeKind.rename newPath⟩]
        else st.changes) := by
  refine ⟨?_, ?_, ?_⟩
  · simp [handleFileRename, mapGet_mapSet_self]
  · intro h
    simp [handleFileRename, mapGet_mapSet_ne _ _ _ _ h, mapGet_mapDelete_self]
  · simp [handleFileRename]

/-- Witness for C8 at a concrete input: renaming `/p/a.ts` to `/p/b.ts`
while recording, with the read of the new path failing, migrates the cache
entry (using the old content as fallback) and records one Rename Change. -/
theorem rename_event_contract_witness :
    mapGet (handleFileRename (some "s") (TrackerState.mk [] [("/p/a.ts", "x")])
        "/p/a.ts" "/p/b.ts" none "i" "ts").fileContentCache "/p/b.ts"
      = some ((none : Option String).getD
          ((mapGet (TrackerState.mk [] [("/p/a.ts", "x")]).fileContentCache "/p/a.ts").getD "")) ∧
    mapGet (handleFileRename (some "s") (TrackerState.mk [] [("/p/a.ts", "x")])
        "/p/a.ts" "/p/b.ts" none "i" "ts").fileContentCache "/p/a.ts" = none ∧
    (handleFileRename (some "s") (TrackerState.mk [] [("/p/a.ts", "x")])
        "/p/a.ts" "/p/b.ts" none "i" "ts").changes
      = (if (some "s").isSome then
          [] ++ [⟨"i", "ts", "/p/a.ts", some "s", ChangeKind.rename "/p/b.ts"⟩]
        else []) :=
  ⟨(rename_event_contract (some "s") (TrackerState.mk [] [("/p/a.ts", "x")])
      "/p/a.ts" "/p/b.ts" none "i" "ts").1,
   (rename_event_contract (some "s") (TrackerState.mk [] [("/p/a.ts", "x")])
      "/p/a.ts" "/p/b.ts" none "i" "ts").2.1 (by decide),
   (rename_event_contract (some "s") (TrackerState.mk [] [("/p/a.ts", "x")])
      "/p/a.ts" "/p/b.ts" none "i" "ts").2.2⟩

/-- C9: starting from an empty change list, every change the tracker ever
stores is tagged with the id of the session that was active when it was
captured (events arriving with no active session store nothing), so every
stored change is returned by the per-session query for a session that was
active at some point of the trace. -/
theorem changes_always_session_tagged (cache0 : List (String × String))
    (tr : List (Option String × TrackerEvent)) (c : Change)
    (hc : c ∈ (runTracker ⟨[], cache0⟩ tr).changes) :
    ∃ sid, c.sessionId = some sid ∧ (some sid) ∈ tr.map Prod.fst ∧
      c ∈ getChangesBySession (runTracker ⟨[], cache0⟩ tr) sid := by
  rcases runTracker_changes tr _ c hc with h | ⟨sid, h1, h2⟩
  · simp at h
  · refine ⟨sid, h1, h2, ?_⟩
    rw [getChangesBySession, List.mem_filter]
    exact ⟨hc, by simp [h1]⟩

/-- Witness for C9 at a concrete input: one save captured during session
`"s"` is tagged with `"s"` and returned by the session query. -/
theorem changes_always_session_tagged_witness :
    ∃ sid, (Change.mk "i" "t" "p" (some "s") (ChangeKind.save "" "x")).sessionId = some sid ∧
      (some sid) ∈ ([(some "s", TrackerEvent.save "p" "x" "i" "t")].map Prod.fst) ∧
      (Change.mk "i" "t" "p" (some "s") (ChangeKind.save "" "x")) ∈
        getChangesBySession (runTracker ⟨[], []⟩
          [(some "s", TrackerEvent.save "p" "x" "i" "t")]) sid :=
  changes_always_session_tagged [] [(some "s", TrackerEvent.save "p" "x" "i" "t")]
    (Change.mk "i" "t" "p" (some "s") (ChangeKind.save "" "x")) (by decide)

/-! Helper lemmas for the session state machine. -/

theorem getCurrentSession_eq_some {st : SessState} {s : Session}
    (h : getCurrentSession st = some s) :
    ∃ i, st.currentIdx = some i ∧ st.sessions[i]? = some s ∧ s.endTime = none := by
  rcases hraw : currentSessionRaw st with _ | s0
  · simp only [getCurrentSession, hraw] at h
    exact Option.noConfusion h
  · simp only [getCurrentSession, hraw] at h
    by_cases he : s0.endTime = none
    · rw [if_pos he] at h
      have hss : s0 = s := Option.some.inj h
      subst hss
      obtain ⟨i, hi, hg⟩ := Option.bind_eq_some.mp (by simpa [currentSessionRaw] using hraw)
      exact ⟨i, hi, hg, he⟩
    · rw [if_neg he] at h
      cases h

theorem sessInv_init : SessInv ⟨[], none⟩ := by
  intro j s h
  simp at h

theorem sessInv_start (st : SessState) (hInv : SessInv st) (newId newStartTime : String) :
    SessInv (startSession st newId newStartTime).2 := by
  unfold startSession
  by_cases hg : (currentSessionRaw st).isSome = true ∧
      (currentSessionRaw st).bind Session.endTime = none
  · rw [if_pos hg]; exact hInv
  · rw [if_neg hg]
    intro j s hj hend
    have hlen : j < st.sessions.length + 1 := by
      by_contra hge
      rw [List.getElem?_eq_none (by simpa [List.length_append] using hge)] at hj
      cases hj
    by_cases hlt : j < st.sessions.length
    · rw [List.getElem?_append_left hlt] at hj
      have hcur := hInv j s hj hend
      exfalso
      apply hg
      refine ⟨?_, ?_⟩ <;>
        simp [currentSessionRaw, hcur, hj, hend]
    · have hje : j = st.sessions.length := by omega
      subst hje
      rfl

theorem stopSession_state (st : SessState) (tracker : TrackerState)
    (endTime : String) (oracle : SummarizeResult) {s : Session} {i : Nat}
    (hcur : getCurrentSession st = some s) (hidx : st.currentIdx = some i) :
    (stopSession st tracker endTime oracle).state =
      { st with sessions := st.sessions.set i { s with endTime := some endTime } } := by
  simp only [stopSession, hcur, hidx]
  by_cases hn : (getChangesBySession tracker s.id).length > 0
  · rw [if_pos hn]
  · rw [if_neg hn]

theorem sessInv_stop (st : SessState) (hInv : SessInv st) (tracker : TrackerState)
    (endTime : String) (oracle : SummarizeResult) :
    SessInv (stopSession st tracker endTime oracle).state := by
  cases hcur : getCurrentSession st with
  | none =>
    have : (stopSession st tracker endTime oracle).state = st := by
      simp only [stopSession, hcur]
    rw [this]
    exact hInv
  | some s =>
    obtain ⟨i, hidx, hget, _⟩ := getCurrentSession_eq_some hcur
    rw [stopSession_state st tracker endTime oracle hcur hidx]
    intro j s2 hj hend2
    by_cases hij : i = j
    · subst hij
      have hi : i < st.sessions.length := by
        rcases List.getElem?_eq_some.mp hget with ⟨hh, _⟩; exact hh
      rw [show ({ st with sessions := st.sessions.set i { s with endTime := some endTime } } :
          SessState).sessions = st.sessions.set i { s with endTime := some endTime } from rfl,
        List.getElem?_set_self hi] at hj
      have hs2 : { s with endTime := some endTime } = s2 := Option.some.inj hj
      rw [← hs2] at hend2
      cases hend2
    · rw [show ({ st with sessions := st.sessions.set i { s with endTime := some endTime } } :
          SessState).sessions = st.sessions.set i { s with endTime := some endTime } from rfl,
        List.getElem?_set_ne hij] at hj
      have := hInv j s2 hj hend2
      rw [hidx] at this
      exact absurd (Option.some.inj this) hij

theorem reachable_sessInv (st : SessState) (h : ReachableSess st) : SessInv st := by
  induction h with
  | init => exact sessInv_init
  | start st' newId newStartTime _ ih => exact sessInv_start st' ih newId newStartTime
  | stop st' tracker endTime oracle _ ih => exact sessInv_stop st' ih tracker endTime oracle

theorem countP_le_one_of_unique {α : Type} (p : α → Bool) :
    ∀ (l : List α) (i0 : Nat), (∀ j a, l[j]? = some a → p a = true → j = i0) →
      l.countP p ≤ 1 := by
  intro l
  induction l with
  | nil => intro i0 _; simp
  | cons a t ih =>
    intro i0 h
    by_cases hp : p a = true
    · have h0 : 0 = i0 := h 0 a (by simp) hp
      have ht : t.countP p = 0 := by
        rw [List.countP_eq_zero]
        intro b hb hpb
        obtain ⟨j, hj⟩ := List.mem_iff_getElem?.mp hb
        have := h (j + 1) b (by simpa using hj) hpb
        omega
      rw [List.countP_cons_of_pos _ _ hp, ht]
    · rw [List.countP_cons_of_neg _ _ hp]
      refine ih (i0 - 1) (fun j b hj hpb => ?_)
      have := h (j + 1) b (by simpa using hj) hpb
      omega

theorem sessInv_countRecording {st : SessState} (h : SessInv st) :
    countRecording st ≤ 1 := by
  unfold countRecording
  cases hidx : st.currentIdx with
  | none =>
    have hz : st.sessions.countP (fun s => s.endTime == none) = 0 := by
      rw [List.countP_eq_zero]
      intro s hs hrec
      obtain ⟨j, hj⟩ := List.mem_iff_getElem?.mp hs
      have := h j s hj (by simpa using hrec)
      rw [hidx] at this
      cases this
    omega
  | some i0 =>
    refine countP_le_one_of_unique _ _ i0 (fun j s hj hrec => ?_)
    have := h j s hj (by simpa using hrec)
    rw [hidx] at this
    cases this
    rfl

/-- C6: `startSession` while a session is already recording returns nothing
and leaves the whole controller state unchanged, and in every reachable
controller state at most one recording session (an entry with `endTime`
unset) exists. -/
theorem start_noop_and_unique_recording :
    (∀ (st : SessState) (newId newStartTime : String), isSessionActive st = true →
      startSession st newId newStartTime = (none, st)) ∧
    (∀ st : SessState, ReachableSess st → countRecording st ≤ 1) := by
  constructor
  · intro st newId newStartTime hact
    obtain ⟨s, hs⟩ := Option.isSome_iff_exists.mp (by simpa [isSessionActive] using hact)
    obtain ⟨i, hidx, hget, hend⟩ := getCurrentSession_eq_some hs
    have hg : (currentSessionRaw st).isSome = true ∧
        (currentSessionRaw st).bind Session.endTime = none := by
      constructor <;> simp [currentSessionRaw, hidx, hget, hend]
    unfold startSession
    rw [if_pos hg]
  · intro st hr
    exact sessInv_countRecording (reachable_sessInv st hr)

/-- Witness for C6: after `start(); start();` the second call is a no-op and
the reachable state after the first start has exactly one recording
session. -/
theorem start_noop_and_unique_recording_witness :
    startSession ((startSession ⟨[], none⟩ "a" "t0").2) "b" "t1" =
      (none, (startSession ⟨[], none⟩ "a" "t0").2) ∧
    countRecording ((startSession ⟨[], none⟩ "a" "t0").2) ≤ 1 :=
  ⟨start_noop_and_unique_recording.1 _ "b" "t1" (by decide),
   start_noop_and_unique_recording.2 _
     (ReachableSess.start ⟨[], none⟩ "a" "t0" ReachableSess.init)⟩

/-- C7: stopping a recording session whose tagged change set is empty stamps
`endTime`, calls no Summarizer, writes no journal entry, and leaves the
controller Idle (no active session). -/
theorem stop_empty_changes_no_pipeline (st : SessState) (tracker : TrackerState)
    (endTime : String) (oracle : SummarizeResult) (s : Session)
    (hcur : getCurrentSession st = some s)
    (hempty : getChangesBySession tracker s.id = []) :
    (stopSession st tracker endTime oracle).summarizerCalled = false ∧
    (stopSession st tracker endTime oracle).journalWritten = false ∧
    (stopSession st tracker endTime oracle).result
      = some { s with endTime := some endTime } ∧
    currentSessionRaw (stopSession st tracker endTime oracle).state
      = some { s with endTime := some endTime } ∧
    isSessionActive (stopSession st tracker endTime oracle).state = false := by
  obtain ⟨i, hidx, hget, hend⟩ := getCurrentSession_eq_some hcur
  have hi : i < st.sessions.length := by
    rcases List.getElem?_eq_some.mp hget with ⟨hh, _⟩; exact hh
  have hstop : stopSession st tracker endTime oracle =
      ⟨some { s with endTime := some endTime },
       { st with sessions := st.sessions.set i { s with endTime := some endTime } },
       false, false⟩ := by
    unfold stopSession
    rw [hcur]
    simp only [hempty, hidx, List.length_nil, gt_iff_lt, lt_self_iff_false, if_false]
  rw [hstop]
  refine ⟨rfl, rfl, rfl, ?_, ?_⟩
  · simp [currentSessionRaw, hidx, List.getElem?_set_self hi]
  · simp [isSessionActive, getCurrentSession, currentSessionRaw, hidx,
      List.getElem?_set_self hi]

/-- Witness for C7: `start(); stop();` with no captured changes. -/
theorem stop_empty_changes_no_pipeline_witness :
    (stopSession ((startSession ⟨[], none⟩ "a" "t0").2) ⟨[], []⟩ "t1"
        ⟨none, none, false⟩).summarizerCalled = false ∧
    (stopSession ((startSession ⟨[], none⟩ "a" "t0").2) ⟨[], []⟩ "t1"
        ⟨none, none, false⟩).journalWritten = false ∧
    (stopSession ((startSession ⟨[], none⟩ "a" "t0").2) ⟨[], []⟩ "t1"
        ⟨none, none, false⟩).result
      = some { Session.mk "a" "t0" none with endTime := some "t1" } ∧
    currentSessionRaw (stopSession ((startSession ⟨[], none⟩ "a" "t0").2) ⟨[], []⟩ "t1"
        ⟨none, none, false⟩).state
      = some { Session.mk "a" "t0" none with endTime := some "t1" } ∧
    isSessionActive (stopSession ((startSession ⟨[], none⟩ "a" "t0").2) ⟨[], []⟩ "t1"
        ⟨none, none, false⟩).state = false :=
  stop_empty_changes_no_pipeline ((startSession ⟨[], none⟩ "a" "t0").2) ⟨[], []⟩ "t1"
    ⟨none, none, false⟩ (Session.mk "a" "t0" none) (by decide) (by decide)

/-- C10: `summarizeSession` on a session whose `endTime` is unset, or with an
empty change list, returns no summary and a `config_error` with
`retryable = false`, and never initiates the external summarization call. -/
theorem summarize_guard_config_error (disposed : Bool) (session : Session)
    (changes : List Change) (apiKey : Option String)
    (modelConfigValid clientInitOk : Bool) (external : ExtCallResult)
    (h : session.endTime = none ∨ changes = []) :
    (summarizeSession disposed session changes apiKey modelConfigValid
        clientInitOk external).summary = none ∧
    (summarizeSession disposed session changes apiKey modelConfigValid
        clientInitOk external).externalCalled = false ∧
    ∃ e, (summarizeSession disposed session changes apiKey modelConfigValid
        clientInitOk external).error = some e ∧
      e.type = SummErrorType.configError ∧ e.retryable = false := by
  rcases h with he | hch
  · by_cases h1 : disposed
    · simp [summarizeSession, h1]
    · simp [summarizeSession, h1, he]
  · by_cases h1 : disposed
    · simp [summarizeSession, h1]
    · by_cases h2 : session.endTime = none
      · simp [summarizeSession, h1, h2]
      · simp [summarizeSession, h1, h2, hch]

/-- Witness for C10 at a concrete input: a still-recording session (no
`endTime`) yields a non-retryable `config_error` without any external
call. -/
theorem summarize_guard_config_error_witness :
    (summarizeSession false (Session.mk "a" "t0" none) []
        (some "key") true true (ExtCallResult.ok [])).summary = none ∧
    (summarizeSession false (Session.mk "a" "t0" none) []
        (some "key") true true (ExtCallResult.ok [])).externalCalled = false ∧
    ∃ e, (summarizeSession false (Session.mk "a" "t0" none) []
        (some "key") true true (ExtCallResult.ok [])).error = some e ∧
      e.type = SummErrorType.configError ∧ e.retryable = false :=
  summarize_guard_config_error false (Session.mk "a" "t0" none) []
    (some "key") true true (ExtCallResult.ok []) (Or.inl rfl)

/-- C2: evaluation of the write path at the failing input.  Writing two
session blocks into an initially absent journal leaves a file with *zero*
lines starting with `# CodeJournal` (the first write produces exactly one):
`updateJournalFile` sets `header = ""` when it strips the existing header,
so it never re-adds the header it removed. -/
theorem second_write_loses_header :
    ((splitNl ((writeAll [("B", [⟨"b.ts", [⟨"2", "y"⟩]⟩]),
          ("A", [⟨"a.ts", [⟨"1", "x"⟩]⟩])]).getD "")).countP
        (fun l => jsStartsWith l "# CodeJournal")) = 0 ∧
    ((splitNl ((writeAll [("A", [⟨"a.ts", [⟨"1", "x"⟩]⟩])]).getD "")).countP
        (fun l => jsStartsWith l "# CodeJournal")) = 1 := by
  constructor <;> rfl

/-- C4 counterexample: when one session records the same logical file both
as an absolute path under the root and as the equivalent relative path, the
by-file view does produce exactly one entry, but its change count is only
the count of the session's *first* matching block (`session.files.find`),
not the sum 1 + 2 over both blocks. -/
theorem byfile_same_session_count_counterexample :
    getFilesByMode (some "/root")
      [⟨"Session A UTC", [⟨"/root/src/a.ts", [⟨"1", "x"⟩]⟩,
        ⟨"src/a.ts", [⟨"2", "y"⟩, ⟨"3", "z"⟩]⟩]⟩]
      = [("src/a.ts", 1)] ∧ (1 : Nat) ≠ 1 + 2 := by
  constructor
  · rfl
  · decide

/-! Helper lemmas for the by-file aggregation. -/

theorem foldFiles_nodup (root : Option String) :
    ∀ (files : List JournalFile) (acc : List String), acc.Nodup →
      (files.foldl
        (fun acc f =>
          let np := normalizeFilePath root f.filePath
          if acc.contains np then acc else acc ++ [np]) acc).Nodup := by
  intro files
  induction files with
  | nil => intro acc h; exact h
  | cons f t ih =>
    intro acc h
    rw [List.foldl_cons]
    apply ih
    show (if acc.contains (normalizeFilePath root f.filePath) = true then acc
      else acc ++ [normalizeFilePath root f.filePath]).Nodup
    by_cases hc : acc.contains (normalizeFilePath root f.filePath) = true
    · rw [if_pos hc]
      exact h
    · rw [if_neg hc]
      have hmem : normalizeFilePath root f.filePath ∉ acc :=
        fun hm => hc (List.elem_iff.mpr hm)
      rw [List.nodup_append]
      refine ⟨h, List.nodup_singleton _, fun x hx hx2 => ?_⟩
      rw [List.mem_singleton] at hx2
      subst hx2
      exact hmem hx

theorem collectNormalized_nodup (root : Option String) (sessions : List JournalSession) :
    (collectNormalized root sessions).Nodup := by
  unfold collectNormalized
  suffices h : ∀ acc : List String, acc.Nodup →
      (sessions.foldl
        (fun acc s =>
          s.files.foldl
            (fun acc f =>
              let np := normalizeFilePath root f.filePath
              if acc.contains np then acc else acc ++ [np]) acc) acc).Nodup by
    exact h [] (List.nodup_nil)
  induction sessions with
  | nil => intro acc h; exact h
  | cons s t ih =>
    intro acc h
    rw [List.foldl_cons]
    exact ih _ (foldFiles_nodup root s.files acc h)

theorem fileTotalChanges_eq_sum (root : Option String) (sessions : List JournalSession)
    (np : String) :
    fileTotalChanges root sessions np =
      (sessions.map (fun s =>
        match sessionFileFind root np s with
        | some f => f.changes.length
        | none => 0)).sum := by
  unfold fileTotalChanges
  suffices h : ∀ (l : List JournalSession) (n : Nat),
      l.foldl
        (fun tot s =>
          match sessionFileFind root np s with
          | some f => tot + f.changes.length
          | none => tot) n
        = n + (l.map (fun s =>
            match sessionFileFind root np s with
            | some f => f.changes.length
            | none => 0)).sum by
    simpa using h sessions 0
  intro l
  induction l with
  | nil => intro n; simp
  | cons s t ih =>
    intro n
    rw [List.foldl_cons, List.map_cons, List.sum_cons]
    cases h : sessionFileFind root np s with
    | some f =>
      simp only [h]
      rw [ih (n + f.changes.length)]
      omega
    | none =>
      simp only [h]
      rw [ih n]
      omega

theorem find_first_eq_filter_sum (p : JournalFile → Bool) :
    ∀ l : List JournalFile, l.countP p ≤ 1 →
      (match l.find? p with
        | some f => f.changes.length
        | none => 0) =
        ((l.filter p).map (fun f => f.changes.length)).sum := by
  intro l
  induction l with
  | nil => intro _; rfl
  | cons a t ih =>
    intro h
    by_cases hp : p a = true
    · have h0 : t.countP p = 0 := by
        rw [List.countP_cons_of_pos _ _ hp] at h
        omega
      have hfil : t.filter p = [] := by
        rw [List.filter_eq_nil_iff]
        intro b hb
        have := List.countP_eq_zero.mp h0 b hb
        simpa using this
      simp [List.find?_cons, hp, List.filter_cons, hfil]
    · have hp' : p a = false := by simpa using hp
      have ht : t.countP p ≤ 1 := by
        rw [List.countP_cons_of_neg _ _ (by simp [hp'])] at h
        exact h
      simp only [List.find?_cons, hp', List.filter_cons, Bool.false_eq_true, if_false]
      exact ih ht

/-- C4 (amended): for every parsed journal and normalized path occurring in
it, the by-file view produces exactly one entry for that path, and the
entry's change count is the sum, over every session, of the change count of
the *first* block in that session whose normalized path matches (recomputed
by re-normalizing, not cached); when no session records the file under more
than one path form, this equals the total change count over all of the
file's blocks. -/
theorem byfile_one_entry_with_aggregated_count (root : Option String)
    (sessions : List JournalSession) (np : String)
    (hmem : np ∈ collectNormalized root sessions) :
    (getFilesByMode root sessions).countP (fun e => e.1 == np) = 1 ∧
    (np, fileTotalChanges root sessions np) ∈ getFilesByMode root sessions ∧
    ((∀ s ∈ sessions,
        s.files.countP (fun f => normalizeFilePath root f.filePath == np) ≤ 1) →
      fileTotalChanges root sessions np =
        (sessions.map (fun s =>
          ((s.files.filter (fun f => normalizeFilePath root f.filePath == np)).map
            (fun f => f.changes.length)).sum)).sum) := by
  refine ⟨?_, ?_, ?_⟩
  · rw [getFilesByMode, List.countP_map]
    have : ((fun (e : String × Nat) => e.1 == np) ∘
        (fun np2 => (np2, fileTotalChanges root sessions np2))) = (fun k => k == np) := rfl
    rw [this]
    rw [show (fun k => k == np) = (fun k => k == np) from rfl]
    have := List.count_eq_one_of_mem (collectNormalized_nodup root sessions) hmem
    simpa [List.count] using this
  · rw [getFilesByMode]
    exact List.mem_map.mpr ⟨np, hmem, rfl⟩
  · intro hone
    rw [fileTotalChanges_eq_sum]
    refine congrArg List.sum (List.map_congr_left (fun s hs => ?_))
    exact find_first_eq_filter_sum _ s.files (hone s hs)

/-- Witness for C4 (amended) at a concrete input: `/root/src/a.ts` in one
session and `src/a.ts` in another aggregate to one entry with combined
count 1 + 2. -/
theorem byfile_one_entry_with_aggregated_count_witness :
    (getFilesByMode (some "/root")
      [⟨"Session A UTC", [⟨"/root/src/a.ts", [⟨"1", "x"⟩]⟩]⟩,
       ⟨"Session B UTC", [⟨"src/a.ts", [⟨"2", "y"⟩, ⟨"3", "z"⟩]⟩]⟩]).countP
        (fun e => e.1 == "src/a.ts") = 1 ∧
    ("src/a.ts", fileTotalChanges (some "/root")
      [⟨"Session A UTC", [⟨"/root/src/a.ts", [⟨"1", "x"⟩]⟩]⟩,
       ⟨"Session B UTC", [⟨"src/a.ts", [⟨"2", "y"⟩, ⟨"3", "z"⟩]⟩]⟩] "src/a.ts") ∈
      getFilesByMode (some "/root")
        [⟨"Session A UTC", [⟨"/root/src/a.ts", [⟨"1", "x"⟩]⟩]⟩,
         ⟨"Session B UTC", [⟨"src/a.ts", [⟨"2", "y"⟩, ⟨"3", "z"⟩]⟩]⟩] ∧
    fileTotalChanges (some "/root")
      [⟨"Session A UTC", [⟨"/root/src/a.ts", [⟨"1", "x"⟩]⟩]⟩,
       ⟨"Session B UTC", [⟨"src/a.ts", [⟨"2", "y"⟩, ⟨"3", "z"⟩]⟩]⟩] "src/a.ts" = 1 + 2 := by
  have h := byfile_one_entry_with_aggregated_count (some "/root")
    [⟨"Session A UTC", [⟨"/root/src/a.ts", [⟨"1", "x"⟩]⟩]⟩,
     ⟨"Session B UTC", [⟨"src/a.ts", [⟨"2", "y"⟩, ⟨"3", "z"⟩]⟩]⟩] "src/a.ts"
    (by decide)
  refine ⟨h.1, h.2.1, ?_⟩
  rw [h.2.2 (by decide)]
  rfl

/-! ### Helper lemmas: line shapes of the journal grammar -/

theorem isPrefixOf_cons_cons (a b : Char) (as bs : List Char) :
    (a :: as).isPrefixOf (b :: bs) = (a == b && as.isPrefixOf bs) := rfl

theorem jsStartsWith_append_self (p rest : String) :
    jsStartsWith (p ++ rest) p = true := by
  rw [jsStartsWith, String.data_append, List.isPrefixOf_iff_prefix]
  exact List.prefix_append _ _

theorem jsStartsWith_false_at0 (s pre : String) (c0 p0 : Char) (cs ps : List Char)
    (hs : s.data = c0 :: cs) (hp : pre.data = p0 :: ps) (hne : (p0 == c0) = false) :
    jsStartsWith s pre = false := by
  rw [jsStartsWith, hs, hp, isPrefixOf_cons_cons, hne, Bool.false_and]

theorem jsStartsWith_false_at1 (s pre : String) (a c1 p1 : Char) (cs ps : List Char)
    (hs : s.data = a :: c1 :: cs) (hp : pre.data = a :: p1 :: ps)
    (hne : (p1 == c1) = false) : jsStartsWith s pre = false := by
  rw [jsStartsWith, hs, hp, isPrefixOf_cons_cons, isPrefixOf_cons_cons, hne]
  simp

theorem jsStartsWith_false_at2 (s pre : String) (a b c2 p2 : Char) (cs ps : List Char)
    (hs : s.data = a :: b :: c2 :: cs) (hp : pre.data = a :: b :: p2 :: ps)
    (hne : (p2 == c2) = false) : jsStartsWith s pre = false := by
  rw [jsStartsWith, hs, hp, isPrefixOf_cons_cons, isPrefixOf_cons_cons,
    isPrefixOf_cons_cons, hne]
  simp

theorem changeLine_data (c : JournalChange) :
    (changeLine c).data
      = '-' :: ' ' :: '*' :: '*' ::
          (c.timestamp.data ++ ('*' :: '*' :: ' ' :: c.description.data)) := by
  show ((("- **" ++ c.timestamp) ++ "** ") ++ c.description).data = _
  rw [String.data_append, String.data_append, String.data_append]
  rw [show "- **".data = ['-', ' ', '*', '*'] from rfl,
    show "** ".data = ['*', '*', ' '] from rfl]
  simp

theorem ns_changeLine_sessHdr (c : JournalChange) :
    jsStartsWith (changeLine c) "## Session " = false :=
  jsStartsWith_false_at0 _ _ '-' '#' _ _ (changeLine_data c) rfl rfl

theorem ns_changeLine_fileHdr (c : JournalChange) :
    jsStartsWith (changeLine c) "### " = false :=
  jsStartsWith_false_at0 _ _ '-' '#' _ _ (changeLine_data c) rfl rfl

theorem fileHdr_data (p : String) :
    ("### " ++ p).data = '#' :: '#' :: '#' :: (' ' :: p.data) := by
  rw [String.data_append, show "### ".data = ['#', '#', '#', ' '] from rfl]
  simp

theorem ns_fileHdr_sessHdr (p : String) :
    jsStartsWith ("### " ++ p) "## Session " = false :=
  jsStartsWith_false_at2 _ _ '#' '#' '#' ' ' _ _ (fileHdr_data p) rfl rfl

theorem sessHdrLine_data (lbl rest : String) :
    (("## Session " ++ lbl ++ " UTC") ++ rest).data
      = '#' :: '#' ::
          ((' ' :: 'S' :: 'e' :: 's' :: 's' :: 'i' :: 'o' :: 'n' :: [' '])
            ++ lbl.data ++ (" UTC".data ++ rest.data)) := by
  rw [String.data_append, String.data_append, String.data_append,
    show "## Session ".data
      = '#' :: '#' :: ' ' :: 'S' :: 'e' :: 's' :: 's' :: 'i' :: 'o' :: 'n' :: [' ']
      from rfl]
  simp

theorem jsDropChars_append (s t : String) (n : Nat) (h : s.data.length = n) :
    jsDropChars (s ++ t) n = t := by
  apply String.ext
  show ((s ++ t).data).drop n = t.data
  rw [String.data_append, ← h, List.drop_left]

theorem dropChars3_sessHdr (lbl : String) :
    jsDropChars ("## Session " ++ lbl ++ " UTC") 3 = "Session " ++ lbl ++ " UTC" := by
  rw [show "## Session " ++ lbl ++ " UTC"
      = "## " ++ ("Session " ++ lbl ++ " UTC") from by
    rw [← String.append_assoc, ← String.append_assoc]
    rfl]
  exact jsDropChars_append "## " _ 3 rfl

theorem dropChars4_fileHdr (p : String) : jsDropChars ("### " ++ p) 4 = p :=
  jsDropChars_append "### " p 4 rfl

theorem takeWhile_all_append (p : Char → Bool) :
    ∀ (a : List Char) (b0 : Char) (bs : List Char),
      (∀ c ∈ a, p c = true) → p b0 = false →
      (a ++ b0 :: bs).takeWhile p = a := by
  intro a
  induction a with
  | nil => intro b0 bs _ hb; simp [List.takeWhile_cons, hb]
  | cons x xs ih =>
    intro b0 bs ha hb
    rw [List.cons_append, List.takeWhile_cons, ha x (by simp)]
    rw [ih b0 bs (fun c hc => ha c (by simp [hc])) hb]
    rfl

theorem dropWhile_all_append (p : Char → Bool) :
    ∀ (a : List Char) (b0 : Char) (bs : List Char),
      (∀ c ∈ a, p c = true) → p b0 = false →
      (a ++ b0 :: bs).dropWhile p = b0 :: bs := by
  intro a
  induction a with
  | nil => intro b0 bs _ hb; simp [List.dropWhile_cons, hb]
  | cons x xs ih =>
    intro b0 bs ha hb
    rw [List.cons_append, List.dropWhile_cons, ha x (by simp)]
    exact ih b0 bs (fun c hc => ha c (by simp [hc])) hb

theorem matchChangeLine_changeLine (c : JournalChange) (h : goodChange c) :
    matchChangeLine (changeLine c) = some (c.timestamp, c.description) := by
  obtain ⟨⟨hts0, hts⟩, ⟨hd0, hd⟩⟩ := h
  obtain ⟨t0, tr, hts2⟩ : ∃ t0 tr, c.timestamp.data = t0 :: tr := by
    rcases hq : c.timestamp.data with _ | ⟨a, b⟩
    · exact absurd hq hts0
    · exact ⟨a, b, rfl⟩
  have htsB : ∀ ch ∈ c.timestamp.data, (ch != '*') = true := fun ch hc => by
    simpa using (hts ch hc).1
  have htake := takeWhile_all_append (fun ch => ch != '*') c.timestamp.data '*'
    ('*' :: ' ' :: c.description.data) htsB (by simp)
  have hdrop := dropWhile_all_append (fun ch => ch != '*') c.timestamp.data '*'
    ('*' :: ' ' :: c.description.data) htsB (by simp)
  rw [matchChangeLine, changeLine_data]
  rw [show matchChangeCh ('-' :: ' ' :: '*' :: '*' ::
        (c.timestamp.data ++ ('*' :: '*' :: ' ' :: c.description.data)))
      = (match (c.timestamp.data ++ ('*' :: '*' :: ' ' :: c.description.data)).takeWhile
            (fun ch => ch != '*'),
          (c.timestamp.data ++ ('*' :: '*' :: ' ' :: c.description.data)).dropWhile
            (fun ch => ch != '*') with
        | _ :: _, '*' :: '*' :: ' ' :: desc =>
          if desc ≠ [] ∧ desc.all (fun ch => !(isJsLineTerm ch)) then
            some ((c.timestamp.data ++ ('*' :: '*' :: ' ' :: c.description.data)).takeWhile
              (fun ch => ch != '*'), desc)
          else none
        | _, _ => none) from rfl]
  rw [htake, hdrop, hts2]
  rw [show (match t0 :: tr, '*' :: '*' :: ' ' :: c.description.data with
        | (_ :: _ : List Char), '*' :: '*' :: ' ' :: desc =>
          if desc ≠ [] ∧ desc.all (fun ch => !(isJsLineTerm ch)) then
            some (t0 :: tr, desc)
          else none
        | _, _ => none)
      = (if c.description.data ≠ [] ∧
            (c.description.data).all (fun ch => !(isJsLineTerm ch)) then
          some (t0 :: tr, c.description.data)
        else none) from rfl]
  rw [if_pos ⟨hd0, by
    rw [List.all_eq_true]
    intro ch hc
    simp [hd ch hc]⟩]
  rw [← hts2]
  rfl

/-! ### Helper lemmas: `split("\n")` and newline-terminated joins -/

theorem splitNlCh_append (l : List Char) (h : '\n' ∉ l) (rest : List Char) :
    splitNlCh (l ++ '\n' :: rest) = l :: splitNlCh rest := by
  induction l with
  | nil => simp [splitNlCh]
  | cons c cs ih =>
    have hc : ¬ (c = '\n') := fun e => h (by simp [e])
    have hcs : '\n' ∉ cs := fun e => h (by simp [e])
    rw [List.cons_append]
    rw [show splitNlCh (c :: (cs ++ '\n' :: rest))
        = if c = '\n' then [] :: splitNlCh (cs ++ '\n' :: rest)
          else match splitNlCh (cs ++ '\n' :: rest) with
            | [] => [[c]]
            | l :: ls => (c :: l) :: ls
        from rfl]
    rw [if_neg hc, ih hcs]

theorem splitNl_cons_line (l : String) (hl : noNl l) (rest : String) :
    splitNl ((l ++ "\n") ++ rest) = l :: splitNl rest := by
  have hd : ((l ++ "\n") ++ rest).data = l.data ++ ('\n' :: rest.data) := by
    rw [String.data_append, String.data_append,
      show ("\n" : String).data = ['\n'] from rfl]
    simp
  rw [splitNl, hd, splitNlCh_append l.data hl rest.data]
  rw [List.map_cons]
  rfl

theorem splitNl_termJoin (ls : List String) (h : ∀ l ∈ ls, noNl l) :
    splitNl (termJoin ls) = ls ++ [""] := by
  induction ls with
  | nil => rfl
  | cons l t ih =>
    rw [termJoin, splitNl_cons_line l (h l (by simp)) (termJoin t),
      ih (fun x hx => h x (by simp [hx]))]
    rfl

theorem termJoin_append (a b : List String) :
    termJoin (a ++ b) = termJoin a ++ termJoin b := by
  induction a with
  | nil => rw [List.nil_append, termJoin, String.empty_append]
  | cons l t ih =>
    rw [List.cons_append, termJoin, termJoin, ih]
    simp only [String.append_assoc]

theorem bridge_utc (x : String) :
    " UTC\n\n" ++ x = " UTC" ++ ("\n" ++ ("\n" ++ x)) := by
  rw [← String.append_assoc, ← String.append_assoc]
  rfl

theorem bridge_header (x : String) :
    "# CodeJournal\n\n" ++ x = "# CodeJournal" ++ ("\n" ++ ("\n" ++ x)) := by
  rw [← String.append_assoc, ← String.append_assoc]
  rfl

/-! ### Helper lemmas: the formatted block is a join of its lines -/

theorem changes_foldl_eq (cs : List JournalChange) :
    ∀ acc : String, cs.foldl (fun o c => o ++ changeLine c ++ "\n") acc
      = acc ++ termJoin (cs.map changeLine) := by
  induction cs with
  | nil =>
    intro acc
    rw [List.foldl_nil, List.map_nil, termJoin, String.append_empty]
  | cons c t ih =>
    intro acc
    rw [List.foldl_cons, ih, List.map_cons, termJoin]
    simp only [String.append_assoc]

theorem files_foldl_eq (files : List JournalFile) :
    ∀ acc : String,
      files.foldl
        (fun output f =>
          output ++ "### " ++ f.filePath ++ "\n" ++
            f.changes.foldl (fun o c => o ++ changeLine c ++ "\n") "" ++ "\n") acc
      = acc ++ termJoin (files.flatMap fileLines) := by
  induction files with
  | nil =>
    intro acc
    rw [List.foldl_nil, List.flatMap_nil, termJoin, String.append_empty]
  | cons f t ih =>
    intro acc
    rw [List.foldl_cons, ih, List.flatMap_cons, termJoin_append]
    rw [changes_foldl_eq _ "", String.empty_append]
    rw [show termJoin (fileLines f)
        = ("### " ++ f.filePath) ++ "\n" ++ (termJoin (f.changes.map changeLine) ++ "\n")
      from by
        rw [fileLines, termJoin, termJoin_append,
          show termJoin [""] = "\n" from rfl]]
    simp only [String.append_assoc]

theorem format_eq_termJoin (lbl : String) (files : List JournalFile) :
    formatSummaryForJournal lbl files = termJoin (sessionLines lbl files) := by
  rw [formatSummaryForJournal, files_foldl_eq files _, sessionLines, termJoin, termJoin,
    String.empty_append]
  simp only [String.append_assoc, bridge_utc]

/-! ### Helper lemmas: the parse scan over formatted lines -/

theorem parseLine_empty (st : PState) : parseLine st "" = st := by
  rcases st with ⟨d, cs, cf⟩
  cases cs <;> cases cf <;> rfl

theorem parseLine_topHeader (st : PState) : parseLine st "# CodeJournal" = st := by
  rcases st with ⟨d, cs, cf⟩
  cases cs <;> cases cf <;> rfl

theorem parseLine_sessHdr (st : PState) (lbl : String) :
    parseLine st ("## Session " ++ lbl ++ " UTC")
      = ⟨flushSessions st, some ⟨"Session " ++ lbl ++ " UTC", []⟩, none⟩ := by
  have h1 : jsStartsWith ("## Session " ++ lbl ++ " UTC") "## Session " = true := by
    rw [String.append_assoc]
    exact jsStartsWith_append_self _ _
  unfold parseLine
  rw [if_pos h1, dropChars3_sessHdr]

theorem parseLine_fileHdr (d : List JournalSession) (s : JournalSession)
    (cf : Option JournalFile) (p : String) :
    parseLine ⟨d, some s, cf⟩ ("### " ++ p)
      = ⟨d, some (flushFileInto s cf), some ⟨p, []⟩⟩ := by
  have h1 : ¬ (jsStartsWith ("### " ++ p) "## Session " = true) := by
    rw [ns_fileHdr_sessHdr p]
    exact Bool.false_ne_true
  unfold parseLine
  rw [if_neg h1, jsStartsWith_append_self "### " p, dropChars4_fileHdr]

theorem parseLine_changeLine (d : List JournalSession) (cs : Option JournalSession)
    (f : JournalFile) (c : JournalChange) (hc : goodChange c) :
    parseLine ⟨d, cs, some f⟩ (changeLine c)
      = ⟨d, cs, some { f with changes := f.changes ++ [c] }⟩ := by
  have h1 : ¬ (jsStartsWith (changeLine c) "## Session " = true) := by
    rw [ns_changeLine_sessHdr c]
    exact Bool.false_ne_true
  unfold parseLine
  rw [if_neg h1, ns_changeLine_fileHdr c, matchChangeLine_changeLine c hc]
  cases cs <;> rfl

theorem parse_changes (cs : List JournalChange) :
    ∀ (hcs : ∀ c ∈ cs, goodChange c) (d : List JournalSession)
      (curS : Option JournalSession) (f : JournalFile),
      (cs.map changeLine).foldl parseLine ⟨d, curS, some f⟩
        = ⟨d, curS, some { f with changes := f.changes ++ cs }⟩ := by
  induction cs with
  | nil =>
    intro _ d curS f
    rw [List.map_nil, List.foldl_nil, List.append_nil]
  | cons c t ih =>
    intro hcs d curS f
    rw [List.map_cons, List.foldl_cons,
      parseLine_changeLine d curS f c (hcs c (by simp)),
      ih (fun x hx => hcs x (by simp [hx])) d curS _]
    simp

theorem parse_fileLines (f : JournalFile) (hf : goodFile f)
    (d : List JournalSession) (s : JournalSession) (cf : Option JournalFile) :
    (fileLines f).foldl parseLine ⟨d, some s, cf⟩
      = ⟨d, some (flushFileInto s cf), some f⟩ := by
  rw [fileLines, List.foldl_cons, parseLine_fileHdr d s cf f.filePath,
    List.foldl_append, parse_changes f.changes hf.2 d _ _, List.foldl_cons,
    parseLine_empty, List.foldl_nil]
  rfl

theorem parse_filesLines (files : List JournalFile) :
    ∀ (hfs : ∀ f ∈ files, goodFile f) (d : List JournalSession) (T : String)
      (fsAcc : List JournalFile) (cf : Option JournalFile),
      ∃ fs2 cf2,
        (files.flatMap fileLines).foldl parseLine ⟨d, some ⟨T, fsAcc⟩, cf⟩
          = ⟨d, some ⟨T, fs2⟩, cf2⟩ ∧
        fs2 ++ cf2.toList = fsAcc ++ cf.toList ++ files := by
  induction files with
  | nil =>
    intro _ d T fsAcc cf
    exact ⟨fsAcc, cf, by rw [List.flatMap_nil, List.foldl_nil], by simp⟩
  | cons f t ih =>
    intro hfs d T fsAcc cf
    rw [List.flatMap_cons, List.foldl_append,
      parse_fileLines f (hfs f (by simp)) d ⟨T, fsAcc⟩ cf]
    have hflush : flushFileInto ⟨T, fsAcc⟩ cf = ⟨T, fsAcc ++ cf.toList⟩ := by
      cases cf with
      | none => simp [flushFileInto]
      | some g => rfl
    rw [hflush]
    obtain ⟨fs2, cf2, heq, hsum⟩ :=
      ih (fun x hx => hfs x (by simp [hx])) d T (fsAcc ++ cf.toList) (some f)
    refine ⟨fs2, cf2, heq, ?_⟩
    rw [hsum]
    simp

theorem parse_sessionBlock (lbl : String) (files : List JournalFile)
    (hfs : ∀ f ∈ files, goodFile f) (st : PState) :
    ∃ fs2 cf2,
      (sessionLines lbl files).foldl parseLine st
        = ⟨flushSessions st, some ⟨"Session " ++ lbl ++ " UTC", fs2⟩, cf2⟩ ∧
      fs2 ++ cf2.toList = files := by
  rw [sessionLines, List.foldl_cons, parseLine_sessHdr st lbl, List.foldl_cons,
    parseLine_empty]
  obtain ⟨fs2, cf2, heq, hsum⟩ :=
    parse_filesLines files hfs (flushSessions st) ("Session " ++ lbl ++ " UTC") [] none
  refine ⟨fs2, cf2, heq, ?_⟩
  rw [hsum]
  simp

theorem parse_blocks (entries : List (String × List JournalFile)) :
    ∀ (hgood : ∀ e ∈ entries, goodEntry e) (st : PState),
      flushSessions
        ((entries.flatMap (fun e => sessionLines e.1 e.2) ++ [""]).foldl parseLine st)
      = flushSessions st ++ entries.map entrySession := by
  induction entries with
  | nil =>
    intro _ st
    rw [List.flatMap_nil, List.nil_append, List.foldl_cons, parseLine_empty,
      List.foldl_nil, List.map_nil, List.append_nil]
  | cons e t ih =>
    intro hgood st
    rw [List.flatMap_cons, List.append_assoc, List.foldl_append]
    obtain ⟨fs2, cf2, heq, hsum⟩ :=
      parse_sessionBlock e.1 e.2 (hgood e (by simp)).2 st
    rw [heq, ih (fun x hx => hgood x (by simp [hx])) _]
    rw [show flushSessions ⟨flushSessions st, some ⟨"Session " ++ e.1 ++ " UTC", fs2⟩, cf2⟩
        = flushSessions st ++ [⟨"Session " ++ e.1 ++ " UTC", fs2 ++ cf2.toList⟩] from by
      rw [flushSessions]
      cases cf2 with
      | none => simp [flushFileInto]
      | some g => rfl]
    rw [hsum, List.map_cons, entrySession]
    simp

/-! ### Helper lemmas: written lines contain no newline -/

theorem noNl_changeLine (c : JournalChange) (hc : goodChange c) : noNl (changeLine c) := by
  intro hmem
  rw [changeLine_data] at hmem
  rcases List.mem_cons.mp hmem with h | hmem
  · exact absurd h (by decide)
  rcases List.mem_cons.mp hmem with h | hmem
  · exact absurd h (by decide)
  rcases List.mem_cons.mp hmem with h | hmem
  · exact absurd h (by decide)
  rcases List.mem_cons.mp hmem with h | hmem
  · exact absurd h (by decide)
  rcases List.mem_append.mp hmem with hmem | hmem
  · exact absurd (hc.1.2 '\n' hmem).2 (by decide)
  rcases List.mem_cons.mp hmem with h | hmem
  · exact absurd h (by decide)
  rcases List.mem_cons.mp hmem with h | hmem
  · exact absurd h (by decide)
  rcases List.mem_cons.mp hmem with h | hmem
  · exact absurd h (by decide)
  exact absurd (hc.2.2 '\n' hmem) (by decide)

theorem noNl_fileHdr (p : String) (hp : noNl p) : noNl ("### " ++ p) := by
  intro hmem
  rw [fileHdr_data] at hmem
  rcases List.mem_cons.mp hmem with h | hmem
  · exact absurd h (by decide)
  rcases List.mem_cons.mp hmem with h | hmem
  · exact absurd h (by decide)
  rcases List.mem_cons.mp hmem with h | hmem
  · exact absurd h (by decide)
  rcases List.mem_cons.mp hmem with h | hmem
  · exact absurd h (by decide)
  exact hp hmem

theorem noNl_sessHdrLine (lbl : String) (h : noNl lbl) :
    noNl ("## Session " ++ lbl ++ " UTC") := by
  intro hmem
  rw [show ("## Session " ++ lbl ++ " UTC").data
      = "## Session ".data ++ lbl.data ++ " UTC".data from by
    rw [String.data_append, String.data_append]] at hmem
  rcases List.mem_append.mp hmem with hmem | hmem
  · rcases List.mem_append.mp hmem with hmem | hmem
    · exact absurd hmem (by decide)
    · exact h hmem
  · exact absurd hmem (by decide)

theorem sessionLines_noNl (lbl : String) (files : List JournalFile)
    (hl : noNl lbl) (hfs : ∀ f ∈ files, goodFile f) :
    ∀ line ∈ sessionLines lbl files, noNl line := by
  intro line hline
  rw [sessionLines] at hline
  rcases List.mem_cons.mp hline with rfl | hline
  · exact noNl_sessHdrLine lbl hl
  rcases List.mem_cons.mp hline with rfl | hline
  · intro h; cases h
  obtain ⟨f, hf, hlf⟩ := List.mem_flatMap.mp hline
  rw [fileLines] at hlf
  rcases List.mem_cons.mp hlf with rfl | hlf
  · exact noNl_fileHdr _ (hfs f hf).1
  rcases List.mem_append.mp hlf with hlf | hlf
  · obtain ⟨c, hc, rfl⟩ := List.mem_map.mp hlf
    exact noNl_changeLine c ((hfs f hf).2 c hc)
  · rcases List.mem_singleton.mp hlf with rfl
    intro h; cases h

/-! ### Helper lemmas: shape of the file after repeated writes -/

theorem findSplit_headerPrefix_lemma (pat rest : List Char) :
    findSplit pat (pat ++ rest) = some ([], rest) := by
  have hpre : pat.isPrefixOf (pat ++ rest) = true := by
    rw [List.isPrefixOf_iff_prefix]
    exact List.prefix_append _ _
  cases hsh : pat ++ rest with
  | nil =>
    obtain ⟨hp, hr⟩ := List.append_eq_nil.mp hsh
    subst hp
    subst hr
    rfl
  | cons c cs =>
    rw [hsh] at hpre
    rw [show findSplit pat (c :: cs)
        = if pat.isPrefixOf (c :: cs) then some ([], (c :: cs).drop pat.length)
          else (findSplit pat cs).map (fun pr => (c :: pr.1, pr.2)) from rfl]
    rw [if_pos hpre, ← hsh, List.drop_left]

theorem jsReplaceFirst_header (B : String) :
    jsReplaceFirst (journalHeader ++ B) "# CodeJournal\n\n" "" = B := by
  rw [jsReplaceFirst]
  rw [show (journalHeader ++ B).data = "# CodeJournal\n\n".data ++ B.data from by
    rw [String.data_append]
    rfl]
  rw [findSplit_headerPrefix_lemma]
  rfl

theorem startsWith_header (B : String) :
    jsStartsWith (journalHeader ++ B) "# CodeJournal" = true := by
  rw [show journalHeader ++ B = "# CodeJournal" ++ ("\n\n" ++ B) from by
    rw [← String.append_assoc]
    rfl]
  exact jsStartsWith_append_self _ _

theorem not_header_sessHdr (lbl rest : String) :
    jsStartsWith (("## Session " ++ lbl ++ " UTC") ++ rest) "# CodeJournal" = false :=
  jsStartsWith_false_at1 _ _ '#' '#' ' ' _ _ (sessHdrLine_data lbl rest) rfl rfl

theorem writeAll_shape (entries : List (String × List JournalFile)) :
    ∀ (hne : entries ≠ []),
      ∃ pre, (pre = journalHeader ∨ pre = "") ∧
        writeAll entries
          = some (pre ++ termJoin (entries.flatMap (fun e => sessionLines e.1 e.2))) := by
  induction entries with
  | nil => intro h; exact absurd rfl h
  | cons e t ih =>
    intro _
    by_cases ht : t = []
    · subst ht
      refine ⟨journalHeader, Or.inl rfl, ?_⟩
      rw [writeAll, writeAll, updateJournal, format_eq_termJoin]
      rw [List.flatMap_cons, List.flatMap_nil, List.append_nil]
    · obtain ⟨pre, hpre, heq⟩ := ih ht
      rw [writeAll, heq]
      rcases hpre with rfl | rfl
      · refine ⟨"", Or.inr rfl, ?_⟩
        rw [updateJournal, if_pos (startsWith_header _), jsReplaceFirst_header]
        rw [format_eq_termJoin, List.flatMap_cons, termJoin_append]
        rw [String.empty_append, String.empty_append]
      · obtain ⟨e2, t2, rfl⟩ := List.exists_cons_of_ne_nil ht
        refine ⟨journalHeader, Or.inl rfl, ?_⟩
        rw [String.empty_append]
        have hns : jsStartsWith
            (termJoin ((e2 :: t2).flatMap (fun e => sessionLines e.1 e.2)))
            "# CodeJournal" = false := by
          rw [List.flatMap_cons, sessionLines, List.cons_append, termJoin,
            String.append_assoc]
          exact not_header_sessHdr e2.1 _
        rw [updateJournal, if_neg (by rw [hns]; exact Bool.false_ne_true)]
        rw [format_eq_termJoin, List.flatMap_cons, termJoin_append]
        rw [String.append_assoc]
        rw [List.flatMap_cons, termJoin_append, List.flatMap_cons, termJoin_append]

/-- C1: for every list of well-formed session entries (start labels and
file blocks whose timestamps and descriptions survive the change-line
grammar), parsing the journal file produced by writing those entries one by
one, starting from an absent file, yields exactly the written sessions —
same sessions, same files, same changes, in file (newest-first) order. -/
theorem journal_write_parse_roundtrip (entries : List (String × List JournalFile))
    (hgood : ∀ e ∈ entries, goodEntry e) :
    parseJournalContent ((writeAll entries).getD "") = entries.map entrySession := by
  by_cases hne : entries = []
  · subst hne
    rfl
  · obtain ⟨pre, hpre, heq⟩ := writeAll_shape entries hne
    rw [heq, Option.getD_some]
    have hlines : ∀ l ∈ entries.flatMap (fun e => sessionLines e.1 e.2), noNl l := by
      intro l hl
      obtain ⟨e, he, hle⟩ := List.mem_flatMap.mp hl
      exact sessionLines_noNl e.1 e.2 (hgood e he).1 (hgood e he).2 l hle
    rcases hpre with rfl | rfl
    · rw [show journalHeader ++ termJoin (entries.flatMap (fun e => sessionLines e.1 e.2))
          = termJoin ("# CodeJournal" :: "" ::
              entries.flatMap (fun e => sessionLines e.1 e.2)) from by
        rw [termJoin, termJoin, String.empty_append, String.append_assoc]
        exact bridge_header _]
      rw [parseJournalContent, splitNl_termJoin _ ?hln]
      case hln =>
        intro l hl
        rcases List.mem_cons.mp hl with rfl | hl
        · intro h
          exact absurd h (by decide)
        rcases List.mem_cons.mp hl with rfl | hl
        · intro h; cases h
        exact hlines l hl
      rw [List.cons_append, List.cons_append, List.foldl_cons, List.foldl_cons,
        parseLine_topHeader, parseLine_empty]
      rw [parse_blocks entries hgood ⟨[], none, none⟩]
      rfl
    · rw [String.empty_append, parseJournalContent, splitNl_termJoin _ hlines]
      rw [parse_blocks entries hgood ⟨[], none, none⟩]
      rfl

/-- Witness for C1 at a concrete input: two writes (sessions A then B)
parse back to the two sessions newest-first. -/
theorem journal_write_parse_roundtrip_witness :
    parseJournalContent ((writeAll
        [("B", [⟨"b.ts", [⟨"2", "y"⟩]⟩]), ("A", [⟨"a.ts", [⟨"1", "x"⟩]⟩])]).getD "")
      = [⟨"Session B UTC", [⟨"b.ts", [⟨"2", "y"⟩]⟩]⟩,
         ⟨"Session A UTC", [⟨"a.ts", [⟨"1", "x"⟩]⟩]⟩] := by
  rw [journal_write_parse_roundtrip _ (by decide)]
  rfl

/-! ### Helper lemmas: reduction of the locator loop body -/

theorem calcBody1_sessTrue (root : Option String) (fs ff : Bool) (T : String)
    (fP : Option String) (tgt : JournalChange) (line : String)
    (h : jsStartsWith line "## Session " = true) :
    calcBody1 root (some T) fP tgt line fs ff
      = if jsDropChars line 3 = T then LoopRes.next true ff
        else if fs = true then LoopRes.stop
        else calcBody2 root (some T) fP tgt line fs ff := by
  unfold calcBody1
  rw [h]

theorem calcBody1_sessFalse (root : Option String) (fs ff : Bool)
    (sT fP : Option String) (tgt : JournalChange) (line : String)
    (h : jsStartsWith line "## Session " = false) :
    calcBody1 root sT fP tgt line fs ff = calcBody2 root sT fP tgt line fs ff := by
  unfold calcBody1
  rw [h]
  cases sT <;> rfl

theorem calcBody2_some (root : Option String) (sT : Option String)
    (tgt : JournalChange) (line fp : String) (fs ff : Bool)
    (h : (jsStartsWith line "### " && fs) = true) :
    calcBody2 root sT (some fp) tgt line fs ff
      = if normalizeFilePath root (jsDropChars line 4) = normalizeFilePath root fp
        then LoopRes.next fs true
        else if ff = true then calcBody3 sT tgt line fs false
        else calcBody3 sT tgt line fs ff := by
  unfold calcBody2
  rw [h]

theorem calcBody2_skip (root : Option String) (sT fP : Option String)
    (tgt : JournalChange) (line : String) (fs ff : Bool)
    (h : (jsStartsWith line "### " && fs) = false) :
    calcBody2 root sT fP tgt line fs ff = calcBody3 sT tgt line fs ff := by
  unfold calcBody2
  rw [h]
  cases fP <;> rfl

theorem calcBody3_chg (sT : Option String) (tgt : JournalChange) (line : String)
    (fs ff : Bool) (h1 : jsStartsWith line "- **" = true)
    (hfs : fs = true) (hff : ff = true) :
    calcBody3 sT tgt line fs ff
      = (match matchChangeLine line with
        | some td =>
          if td.1 = tgt.timestamp ∧ td.2 = tgt.description then LoopRes.found
          else calcBody4 sT tgt line fs ff
        | none => calcBody4 sT tgt line fs ff) := by
  unfold calcBody3
  rw [if_pos ⟨h1, hfs, hff⟩]

theorem calcBody3_skip (sT : Option String) (tgt : JournalChange) (line : String)
    (fs ff : Bool) (h : ¬ (jsStartsWith line "- **" = true ∧ fs = true ∧ ff = true)) :
    calcBody3 sT tgt line fs ff = calcBody4 sT tgt line fs ff := by
  unfold calcBody3
  rw [if_neg h]

theorem calcBody4_someTitle (T : String) (tgt : JournalChange) (line : String)
    (fs ff : Bool) : calcBody4 (some T) tgt line fs ff = LoopRes.next fs ff := by
  unfold calcBody4
  rw [if_neg (fun h => Bool.false_ne_true h.1)]

/-! ### Helper lemmas: locator body on each line kind (scoped search) -/

theorem ns_sessHdr_fileHdr (lbl : String) :
    jsStartsWith ("## Session " ++ lbl ++ " UTC") "### " = false :=
  jsStartsWith_false_at2 _ _ '#' '#' ' ' '#' _ _
    (by rw [show ("## Session " ++ lbl ++ " UTC")
        = ("## Session " ++ lbl ++ " UTC") ++ "" from (String.append_empty _).symm]
        exact sessHdrLine_data lbl "") rfl rfl

theorem ns_sessHdr_chg (lbl : String) :
    jsStartsWith ("## Session " ++ lbl ++ " UTC") "- **" = false :=
  jsStartsWith_false_at0 _ _ '#' '-' _ _
    (by rw [show ("## Session " ++ lbl ++ " UTC")
        = ("## Session " ++ lbl ++ " UTC") ++ "" from (String.append_empty _).symm]
        exact sessHdrLine_data lbl "") rfl rfl

theorem ns_fileHdr_chg (p : String) :
    jsStartsWith ("### " ++ p) "- **" = false :=
  jsStartsWith_false_at0 _ _ '#' '-' _ _ (fileHdr_data p) rfl rfl

theorem startsWith_chg (c : JournalChange) :
    jsStartsWith (changeLine c) "- **" = true := by
  rw [show changeLine c = "- **" ++ (c.timestamp ++ "** " ++ c.description) from by
    rw [changeLine]
    simp only [String.append_assoc]]
  exact jsStartsWith_append_self _ _

theorem body_sessHdr_hit (root : Option String) (T p : String) (tgt : JournalChange)
    (lbl : String) (fs ff : Bool) (hT : "Session " ++ lbl ++ " UTC" = T) :
    calcBody1 root (some T) (some p) tgt ("## Session " ++ lbl ++ " UTC") fs ff
      = LoopRes.next true ff := by
  rw [calcBody1_sessTrue root fs ff T (some p) tgt _ (by
    rw [String.append_assoc]
    exact jsStartsWith_append_self _ _)]
  rw [dropChars3_sessHdr, if_pos hT]

theorem body_sessHdr_miss_idle (root : Option String) (T p : String)
    (tgt : JournalChange) (lbl : String) (ff : Bool)
    (hT : ¬ ("Session " ++ lbl ++ " UTC" = T)) :
    calcBody1 root (some T) (some p) tgt ("## Session " ++ lbl ++ " UTC") false ff
      = LoopRes.next false ff := by
  rw [calcBody1_sessTrue root false ff T (some p) tgt _ (by
    rw [String.append_assoc]
    exact jsStartsWith_append_self _ _)]
  rw [dropChars3_sessHdr, if_neg hT, if_neg Bool.false_ne_true]
  rw [calcBody2_skip root (some T) (some p) tgt _ false ff (by
    rw [ns_sessHdr_fileHdr lbl, Bool.false_and])]
  rw [calcBody3_skip _ _ _ _ _ (fun h => Bool.false_ne_true h.2.1)]
  exact calcBody4_someTitle T tgt _ false ff

theorem body_sessHdr_miss_found (root : Option String) (T p : String)
    (tgt : JournalChange) (lbl : String) (ff : Bool)
    (hT : ¬ ("Session " ++ lbl ++ " UTC" = T)) :
    calcBody1 root (some T) (some p) tgt ("## Session " ++ lbl ++ " UTC") true ff
      = LoopRes.stop := by
  rw [calcBody1_sessTrue root true ff T (some p) tgt _ (by
    rw [String.append_assoc]
    exact jsStartsWith_append_self _ _)]
  rw [dropChars3_sessHdr, if_neg hT, if_pos rfl]

theorem body_fileHdr_idle (root : Option String) (T p : String)
    (tgt : JournalChange) (q : String) (ff : Bool) :
    calcBody1 root (some T) (some p) tgt ("### " ++ q) false ff
      = LoopRes.next false ff := by
  rw [calcBody1_sessFalse root false ff (some T) (some p) tgt _ (ns_fileHdr_sessHdr q)]
  rw [calcBody2_skip root (some T) (some p) tgt _ false ff (by rw [Bool.and_false])]
  rw [calcBody3_skip _ _ _ _ _ (fun h => Bool.false_ne_true h.2.1)]
  exact calcBody4_someTitle T tgt _ false ff

theorem body_fileHdr_match (root : Option String) (T p : String)
    (tgt : JournalChange) (q : String) (ff : Bool)
    (hq : normalizeFilePath root q = normalizeFilePath root p) :
    calcBody1 root (some T) (some p) tgt ("### " ++ q) true ff
      = LoopRes.next true true := by
  rw [calcBody1_sessFalse root true ff (some T) (some p) tgt _ (ns_fileHdr_sessHdr q)]
  rw [calcBody2_some root (some T) tgt _ p true ff (by
    rw [jsStartsWith_append_self "### " q, Bool.true_and])]
  rw [dropChars4_fileHdr, if_pos hq]

theorem body_fileHdr_nomatch (root : Option String) (T p : String)
    (tgt : JournalChange) (q : String) (ff : Bool)
    (hq : ¬ (normalizeFilePath root q = normalizeFilePath root p)) :
    calcBody1 root (some T) (some p) tgt ("### " ++ q) true ff
      = LoopRes.next true false := by
  rw [calcBody1_sessFalse root true ff (some T) (some p) tgt _ (ns_fileHdr_sessHdr q)]
  rw [calcBody2_some root (some T) tgt _ p true ff (by
    rw [jsStartsWith_append_self "### " q, Bool.true_and])]
  rw [dropChars4_fileHdr, if_neg hq]
  cases ff with
  | true =>
    rw [if_pos rfl, calcBody3_skip _ _ _ _ _ (fun h => Bool.false_ne_true h.2.2)]
    exact calcBody4_someTitle T tgt _ true false
  | false =>
    rw [if_neg Bool.false_ne_true,
      calcBody3_skip _ _ _ _ _ (fun h => Bool.false_ne_true h.2.2)]
    exact calcBody4_someTitle T tgt _ true false

theorem body_chg_scanning (root : Option String) (T p : String)
    (tgt : JournalChange) (c : JournalChange) (hc : goodChange c)
    (hne : c ≠ tgt) :
    calcBody1 root (some T) (some p) tgt (changeLine c) true true
      = LoopRes.next true true := by
  rw [calcBody1_sessFalse root true true (some T) (some p) tgt _ (ns_changeLine_sessHdr c)]
  rw [calcBody2_skip root (some T) (some p) tgt _ true true (by
    rw [ns_changeLine_fileHdr c, Bool.false_and])]
  rw [calcBody3_chg (some T) tgt _ true true (startsWith_chg c) rfl rfl]
  rw [matchChangeLine_changeLine c hc]
  show (if c.timestamp = tgt.timestamp ∧ c.description = tgt.description then LoopRes.found
    else calcBody4 (some T) tgt (changeLine c) true true) = LoopRes.next true true
  rw [if_neg (fun h => hne (by
    rcases c with ⟨ct, cd⟩
    rcases tgt with ⟨tt, td⟩
    rcases h with ⟨h1, h2⟩
    simp only at h1 h2
    rw [h1, h2]))]
  exact calcBody4_someTitle T tgt _ true true

theorem body_chg_hit (root : Option String) (T p : String) (tgt : JournalChange)
    (htgt : goodChange tgt) :
    calcBody1 root (some T) (some p) tgt (changeLine tgt) true true
      = LoopRes.found := by
  rw [calcBody1_sessFalse root true true (some T) (some p) tgt _
    (ns_changeLine_sessHdr tgt)]
  rw [calcBody2_skip root (some T) (some p) tgt _ true true (by
    rw [ns_changeLine_fileHdr tgt, Bool.false_and])]
  rw [calcBody3_chg (some T) tgt _ true true (startsWith_chg tgt) rfl rfl]
  rw [matchChangeLine_changeLine tgt htgt]
  show (if tgt.timestamp = tgt.timestamp ∧ tgt.description = tgt.description then LoopRes.found
    else calcBody4 (some T) tgt (changeLine tgt) true true) = LoopRes.found
  rw [if_pos ⟨rfl, rfl⟩]

theorem body_chg_noff (root : Option String) (T p : String) (tgt : JournalChange)
    (c : JournalChange) (fs : Bool) :
    calcBody1 root (some T) (some p) tgt (changeLine c) fs false
      = LoopRes.next fs false := by
  rw [calcBody1_sessFalse root fs false (some T) (some p) tgt _ (ns_changeLine_sessHdr c)]
  rw [calcBody2_skip root (some T) (some p) tgt _ fs false (by
    rw [ns_changeLine_fileHdr c, Bool.false_and])]
  rw [calcBody3_skip _ _ _ _ _ (fun h => Bool.false_ne_true h.2.2)]
  exact calcBody4_someTitle T tgt _ fs false

theorem body_empty (root : Option String) (T p : String) (tgt : JournalChange)
    (fs ff : Bool) :
    calcBody1 root (some T) (some p) tgt "" fs ff = LoopRes.next fs ff := by
  rw [calcBody1_sessFalse root fs ff (some T) (some p) tgt "" rfl]
  rw [calcBody2_skip root (some T) (some p) tgt "" fs ff (by
    rw [show jsStartsWith "" "### " = false from rfl, Bool.false_and])]
  rw [calcBody3_skip _ _ "" _ _ (fun h => absurd h.1 (by decide))]
  exact calcBody4_someTitle T tgt "" fs ff

theorem body_topHeader (root : Option String) (T p : String) (tgt : JournalChange)
    (fs ff : Bool) :
    calcBody1 root (some T) (some p) tgt "# CodeJournal" fs ff
      = LoopRes.next fs ff := by
  rw [calcBody1_sessFalse root fs ff (some T) (some p) tgt "# CodeJournal" rfl]
  rw [calcBody2_skip root (some T) (some p) tgt "# CodeJournal" fs ff (by
    rw [show jsStartsWith "# CodeJournal" "### " = false from rfl, Bool.false_and])]
  rw [calcBody3_skip _ _ "# CodeJournal" _ _ (fun h => absurd h.1 (by decide))]
  exact calcBody4_someTitle T tgt "# CodeJournal" fs ff

theorem body_chg_nofs (root : Option String) (T p : String) (tgt : JournalChange)
    (c : JournalChange) (ff : Bool) :
    calcBody1 root (some T) (some p) tgt (changeLine c) false ff
      = LoopRes.next false ff := by
  rw [calcBody1_sessFalse root false ff (some T) (some p) tgt _ (ns_changeLine_sessHdr c)]
  rw [calcBody2_skip root (some T) (some p) tgt _ false ff (by rw [Bool.and_false])]
  rw [calcBody3_skip _ _ _ _ _ (fun h => Bool.false_ne_true h.2.1)]
  exact calcBody4_someTitle T tgt _ false ff

/-! ### Helper lemmas: the locator loop over whole phases -/

theorem calcLoop_step (root : Option String) (sT fP : Option String)
    (tgt : JournalChange) (line : String) (rest : List String) (i : Nat)
    (fs ff fs2 ff2 : Bool)
    (h : calcBody1 root sT fP tgt line fs ff = LoopRes.next fs2 ff2) :
    calcLoop root sT fP tgt (line :: rest) i fs ff
      = calcLoop root sT fP tgt rest (i + 1) fs2 ff2 := by
  rw [calcLoop, h]

theorem calcLoop_found (root : Option String) (sT fP : Option String)
    (tgt : JournalChange) (line : String) (rest : List String) (i : Nat)
    (fs ff : Bool) (h : calcBody1 root sT fP tgt line fs ff = LoopRes.found) :
    calcLoop root sT fP tgt (line :: rest) i fs ff = some (i + 1) := by
  rw [calcLoop, h]

theorem calcLoop_stop (root : Option String) (sT fP : Option String)
    (tgt : JournalChange) (line : String) (rest : List String) (i : Nat)
    (fs ff : Bool) (h : calcBody1 root sT fP tgt line fs ff = LoopRes.stop) :
    calcLoop root sT fP tgt (line :: rest) i fs ff = none := by
  rw [calcLoop, h]

theorem calcLoop_skip (root : Option String) (sT fP : Option String)
    (tgt : JournalChange) (fs ff : Bool) :
    ∀ (ls rest : List String) (i : Nat),
      (∀ l ∈ ls, calcBody1 root sT fP tgt l fs ff = LoopRes.next fs ff) →
      calcLoop root sT fP tgt (ls ++ rest) i fs ff
        = calcLoop root sT fP tgt rest (i + ls.length) fs ff := by
  intro ls
  induction ls with
  | nil => intro rest i _; rw [List.nil_append, List.length_nil, Nat.add_zero]
  | cons l t ih =>
    intro rest i h
    rw [List.cons_append, calcLoop_step root sT fP tgt l _ i fs ff fs ff (h l (by simp))]
    rw [ih rest (i + 1) (fun x hx => h x (by simp [hx]))]
    rw [List.length_cons, show i + 1 + t.length = i + (t.length + 1) from by omega]

theorem sessLines_skip_idle (root : Option String) (T p : String)
    (tgt : JournalChange) (lbl : String) (files : List JournalFile)
    (hne : ¬ ("Session " ++ lbl ++ " UTC" = T)) (ff : Bool) :
    ∀ l ∈ sessionLines lbl files,
      calcBody1 root (some T) (some p) tgt l false ff = LoopRes.next false ff := by
  intro l hl
  rw [sessionLines] at hl
  rcases List.mem_cons.mp hl with rfl | hl
  · exact body_sessHdr_miss_idle root T p tgt lbl ff hne
  rcases List.mem_cons.mp hl with rfl | hl
  · exact body_empty root T p tgt false ff
  obtain ⟨f, _, hlf⟩ := List.mem_flatMap.mp hl
  rw [fileLines] at hlf
  rcases List.mem_cons.mp hlf with rfl | hlf
  · exact body_fileHdr_idle root T p tgt f.filePath ff
  rcases List.mem_append.mp hlf with hlf | hlf
  · obtain ⟨c, _, rfl⟩ := List.mem_map.mp hlf
    exact body_chg_nofs root T p tgt c ff
  · rcases List.mem_singleton.mp hlf with rfl
    exact body_empty root T p tgt false ff

theorem flatPre_skip_nomatch (root : Option String) (T p : String)
    (tgt : JournalChange) (blocks : List JournalFile)
    (hnm : ∀ f ∈ blocks,
      ¬ (normalizeFilePath root f.filePath = normalizeFilePath root p)) :
    ∀ l ∈ blocks.flatMap fileLines,
      calcBody1 root (some T) (some p) tgt l true false = LoopRes.next true false := by
  intro l hl
  obtain ⟨f, hf, hlf⟩ := List.mem_flatMap.mp hl
  rw [fileLines] at hlf
  rcases List.mem_cons.mp hlf with rfl | hlf
  · exact body_fileHdr_nomatch root T p tgt f.filePath false (hnm f hf)
  rcases List.mem_append.mp hlf with hlf | hlf
  · obtain ⟨c, _, rfl⟩ := List.mem_map.mp hlf
    exact body_chg_noff root T p tgt c true
  · rcases List.mem_singleton.mp hlf with rfl
    exact body_empty root T p tgt true false

theorem caLines_skip (root : Option String) (T p : String) (tgt : JournalChange)
    (ca : List JournalChange) (hg : ∀ c ∈ ca, goodChange c) (hno : tgt ∉ ca) :
    ∀ l ∈ ca.map changeLine,
      calcBody1 root (some T) (some p) tgt l true true = LoopRes.next true true := by
  intro l hl
  obtain ⟨c, hc, rfl⟩ := List.mem_map.mp hl
  exact body_chg_scanning root T p tgt c (hg c hc) (fun e => hno (e ▸ hc))

theorem fileLines_scan_inside (root : Option String) (T p : String)
    (tgt : JournalChange) (f : JournalFile) (hg : goodFile f)
    (hno : tgt ∉ f.changes) (rest : List String) (i : Nat) (ff : Bool) :
    ∃ ff2, calcLoop root (some T) (some p) tgt (fileLines f ++ rest) i true ff
      = calcLoop root (some T) (some p) tgt rest (i + (fileLines f).length) true ff2 := by
  rw [fileLines, List.cons_append, List.append_assoc, List.singleton_append]
  by_cases hm : normalizeFilePath root f.filePath = normalizeFilePath root p
  · refine ⟨true, ?_⟩
    rw [calcLoop_step root _ _ tgt _ _ i true ff true true
      (body_fileHdr_match root T p tgt f.filePath ff hm)]
    rw [calcLoop_skip root _ _ tgt true true (f.changes.map changeLine) _ (i + 1)
      (caLines_skip root T p tgt f.changes hg.2 hno)]
    rw [calcLoop_step root _ _ tgt _ _ _ true true true true
      (body_empty root T p tgt true true)]
    rw [List.length_cons, List.length_append, List.length_map, List.length_singleton]
    rw [show i + 1 + f.changes.length + 1 = i + (f.changes.length + 1 + 1) from by omega]
  · refine ⟨false, ?_⟩
    rw [calcLoop_step root _ _ tgt _ _ i true ff true false
      (body_fileHdr_nomatch root T p tgt f.filePath ff hm)]
    rw [calcLoop_skip root _ _ tgt true false (f.changes.map changeLine) _ (i + 1)
      (fun l hl => by
        obtain ⟨c, _, rfl⟩ := List.mem_map.mp hl
        exact body_chg_noff root T p tgt c true)]
    rw [calcLoop_step root _ _ tgt _ _ _ true false true false
      (body_empty root T p tgt true false)]
    rw [List.length_cons, List.length_append, List.length_map, List.length_singleton]
    rw [show i + 1 + f.changes.length + 1 = i + (f.changes.length + 1 + 1) from by omega]

theorem filesLines_scan_inside (root : Option String) (T p : String)
    (tgt : JournalChange) :
    ∀ (files : List JournalFile), (∀ f ∈ files, goodFile f) →
      (∀ f ∈ files, tgt ∉ f.changes) →
      ∀ (rest : List String) (i : Nat) (ff : Bool),
      ∃ ff2, calcLoop root (some T) (some p) tgt (files.flatMap fileLines ++ rest) i true ff
        = calcLoop root (some T) (some p) tgt rest
            (i + (files.flatMap fileLines).length) true ff2 := by
  intro files
  induction files with
  | nil =>
    intro _ _ rest i ff
    exact ⟨ff, by rw [List.flatMap_nil, List.nil_append, List.length_nil, Nat.add_zero]⟩
  | cons f t ih =>
    intro hg hno rest i ff
    rw [List.flatMap_cons, List.append_assoc]
    obtain ⟨ffA, hA⟩ := fileLines_scan_inside root T p tgt f (hg f (by simp))
      (hno f (by simp)) (t.flatMap fileLines ++ rest) i ff
    obtain ⟨ffB, hB⟩ := ih (fun x hx => hg x (by simp [hx]))
      (fun x hx => hno x (by simp [hx])) rest (i + (fileLines f).length) ffA
    refine ⟨ffB, ?_⟩
    rw [hA, hB, List.length_append]
    rw [show i + (fileLines f).length + (t.flatMap fileLines).length
        = i + ((fileLines f).length + (t.flatMap fileLines).length) from by omega]

/-- C3: in a journal holding two session blocks that both touch file `p`,
with a change `tgt` that occurs only in the second session's block for `p`:
the locator scoped to the second session's title and `p` returns the 1-based
line number of that change line (the line at that number is exactly the
written change line); scoped to the first session's title it returns `null`,
because the different session header met after the matched session stops the
scan; and on an absent journal file it returns `null`. -/
theorem locator_scope_contract (root : Option String) (l1 l2 : String)
    (files1 pre2 post2 : List JournalFile) (fb : JournalFile)
    (p : String) (ca cb : List JournalChange) (tgt : JournalChange)
    (hg1 : goodEntry (l1, files1))
    (hg2 : goodEntry (l2, pre2 ++ fb :: post2))
    (hT : ¬ ("Session " ++ l1 ++ " UTC" = "Session " ++ l2 ++ " UTC"))
    (hp1 : ∃ f ∈ files1, normalizeFilePath root f.filePath = normalizeFilePath root p)
    (hpre2 : ∀ f ∈ pre2, ¬ (normalizeFilePath root f.filePath = normalizeFilePath root p))
    (hfb : normalizeFilePath root fb.filePath = normalizeFilePath root p)
    (hfbch : fb.changes = ca ++ tgt :: cb)
    (hca : tgt ∉ ca)
    (hno1 : ∀ f ∈ files1, tgt ∉ f.changes) :
    (calculateEditLineNumber root
        (some (journalHeader ++ formatSummaryForJournal l1 files1
          ++ formatSummaryForJournal l2 (pre2 ++ fb :: post2)))
        tgt (some ("Session " ++ l2 ++ " UTC")) (some p)
      = some ((sessionLines l1 files1).length
          + (pre2.flatMap fileLines).length + ca.length + 6)) ∧
    ((splitNl (journalHeader ++ formatSummaryForJournal l1 files1
        ++ formatSummaryForJournal l2 (pre2 ++ fb :: post2)))[
        (sessionLines l1 files1).length
          + (pre2.flatMap fileLines).length + ca.length + 5]?
      = some (changeLine tgt)) ∧
    (calculateEditLineNumber root
        (some (journalHeader ++ formatSummaryForJournal l1 files1
          ++ formatSummaryForJournal l2 (pre2 ++ fb :: post2)))
        tgt (some ("Session " ++ l1 ++ " UTC")) (some p)
      = none) ∧
    (calculateEditLineNumber root none tgt
        (some ("Session " ++ l2 ++ " UTC")) (some p) = none) := by
  have hfbmem : fb ∈ pre2 ++ fb :: post2 :=
    List.mem_append_right _ (List.mem_cons_self _ _)
  have hgfb : goodFile fb := hg2.2 fb hfbmem
  have hgca : ∀ c ∈ ca, goodChange c := fun c hc =>
    hgfb.2 c (by rw [hfbch]; exact List.mem_append_left _ hc)
  have hgtgt : goodChange tgt :=
    hgfb.2 tgt (by rw [hfbch]; exact List.mem_append_right _ (List.mem_cons_self _ _))
  have hcontent : journalHeader ++ formatSummaryForJournal l1 files1
      ++ formatSummaryForJournal l2 (pre2 ++ fb :: post2)
      = termJoin ("# CodeJournal" :: "" ::
          (sessionLines l1 files1 ++ sessionLines l2 (pre2 ++ fb :: post2))) := by
    rw [format_eq_termJoin l1 files1, format_eq_termJoin l2 (pre2 ++ fb :: post2)]
    rw [String.append_assoc journalHeader _ _]
    rw [termJoin, termJoin, String.empty_append, termJoin_append]
    rw [String.append_assoc "# CodeJournal" "\n" _]
    rw [← bridge_header]
    rfl
  have hnoNl : ∀ l ∈ ("# CodeJournal" :: "" ::
      (sessionLines l1 files1 ++ sessionLines l2 (pre2 ++ fb :: post2))), noNl l := by
    intro l hl
    rcases List.mem_cons.mp hl with rfl | hl
    · intro h
      exact absurd h (by decide)
    rcases List.mem_cons.mp hl with rfl | hl
    · intro h
      cases h
    rcases List.mem_append.mp hl with hl | hl
    · exact sessionLines_noNl l1 files1 hg1.1 hg1.2 l hl
    · exact sessionLines_noNl l2 _ hg2.1 hg2.2 l hl
  have hsplit : splitNl (journalHeader ++ formatSummaryForJournal l1 files1
      ++ formatSummaryForJournal l2 (pre2 ++ fb :: post2))
      = "# CodeJournal" :: "" ::
          (sessionLines l1 files1 ++ (sessionLines l2 (pre2 ++ fb :: post2) ++ [""])) := by
    rw [hcontent, splitNl_termJoin _ hnoNl]
    simp [List.append_assoc]
  refine ⟨?_, ?_, ?_, ?_⟩
  · -- scoped to the second session's title: found at the stated line
    show calcLoop root (some ("Session " ++ l2 ++ " UTC")) (some p) tgt
        (splitNl _) 0 false false = _
    rw [hsplit]
    rw [calcLoop_step root _ _ tgt _ _ 0 false false false false
      (body_topHeader root _ p tgt false false)]
    rw [calcLoop_step root _ _ tgt _ _ 1 false false false false
      (body_empty root _ p tgt false false)]
    rw [calcLoop_skip root _ _ tgt false false (sessionLines l1 files1) _ 2
      (sessLines_skip_idle root _ p tgt l1 files1 hT false)]
    rw [show sessionLines l2 (pre2 ++ fb :: post2)
        = ("## Session " ++ l2 ++ " UTC") :: "" ::
            ((pre2 ++ fb :: post2).flatMap fileLines) from rfl]
    rw [List.cons_append, List.cons_append]
    rw [calcLoop_step root _ _ tgt _ _ _ false false true false
      (body_sessHdr_hit root _ p tgt l2 false false rfl)]
    rw [calcLoop_step root _ _ tgt _ _ _ true false true false
      (body_empty root _ p tgt true false)]
    rw [List.flatMap_append, List.flatMap_cons, List.append_assoc, List.append_assoc]
    rw [calcLoop_skip root _ _ tgt true false (pre2.flatMap fileLines) _ _
      (flatPre_skip_nomatch root _ p tgt pre2 hpre2)]
    rw [show fileLines fb
        = ("### " ++ fb.filePath) :: (fb.changes.map changeLine ++ [""]) from rfl]
    rw [hfbch, List.map_append, List.map_cons, List.cons_append]
    rw [calcLoop_step root _ _ tgt _ _ _ true false true true
      (body_fileHdr_match root _ p tgt fb.filePath false hfb)]
    rw [List.append_assoc, List.append_assoc, List.cons_append]
    rw [calcLoop_skip root _ _ tgt true true (ca.map changeLine) _ _
      (caLines_skip root _ p tgt ca hgca hca)]
    rw [calcLoop_found root _ _ tgt _ _ _ true true
      (body_chg_hit root _ p tgt hgtgt)]
    congr 1
    simp only [List.length_map]
    omega
  · -- the line at that number is the written change line
    rw [hsplit]
    rw [show sessionLines l2 (pre2 ++ fb :: post2)
        = ("## Session " ++ l2 ++ " UTC") :: "" ::
            ((pre2 ++ fb :: post2).flatMap fileLines) from rfl]
    rw [List.flatMap_append, List.flatMap_cons]
    rw [show fileLines fb
        = ("### " ++ fb.filePath) :: (fb.changes.map changeLine ++ [""]) from rfl]
    rw [hfbch, List.map_append, List.map_cons]
    rw [show ("# CodeJournal" : String) :: "" ::
        (sessionLines l1 files1 ++
          (("## Session " ++ l2 ++ " UTC") :: "" ::
            (pre2.flatMap fileLines ++
              (("### " ++ fb.filePath) ::
                ((ca.map changeLine ++ changeLine tgt :: cb.map changeLine) ++ [""])
                ++ post2.flatMap fileLines)) ++ [""]))
        = (["# CodeJournal", ""] ++ sessionLines l1 files1
            ++ ["## Session " ++ l2 ++ " UTC", ""] ++ pre2.flatMap fileLines
            ++ ["### " ++ fb.filePath] ++ ca.map changeLine)
          ++ (changeLine tgt ::
              (cb.map changeLine ++ [""] ++ post2.flatMap fileLines ++ [""])) from by
      simp [List.append_assoc]]
    rw [List.getElem?_append_right (by
      simp only [List.length_append, List.length_cons, List.length_nil, List.length_map]
      omega)]
    rw [show (sessionLines l1 files1).length + (pre2.flatMap fileLines).length
        + ca.length + 5
        - (["# CodeJournal", ""] ++ sessionLines l1 files1
            ++ ["## Session " ++ l2 ++ " UTC", ""] ++ pre2.flatMap fileLines
            ++ ["### " ++ fb.filePath] ++ ca.map changeLine).length = 0 from by
      simp only [List.length_append, List.length_cons, List.length_nil, List.length_map]
      omega]
    simp
  · -- scoped to the first session's title: the second header stops the scan
    show calcLoop root (some ("Session " ++ l1 ++ " UTC")) (some p) tgt
        (splitNl _) 0 false false = _
    rw [hsplit]
    rw [calcLoop_step root _ _ tgt _ _ 0 false false false false
      (body_topHeader root _ p tgt false false)]
    rw [calcLoop_step root _ _ tgt _ _ 1 false false false false
      (body_empty root _ p tgt false false)]
    rw [show sessionLines l1 files1
        = ("## Session " ++ l1 ++ " UTC") :: "" :: (files1.flatMap fileLines) from rfl]
    rw [List.cons_append, List.cons_append]
    rw [calcLoop_step root _ _ tgt _ _ 2 false false true false
      (body_sessHdr_hit root _ p tgt l1 false false rfl)]
    rw [calcLoop_step root _ _ tgt _ _ 3 true false true false
      (body_empty root _ p tgt true false)]
    obtain ⟨ffX, hscan⟩ := filesLines_scan_inside root _ p tgt files1 hg1.2 hno1
      (sessionLines l2 (pre2 ++ fb :: post2) ++ [""]) 4 false
    rw [hscan]
    rw [show sessionLines l2 (pre2 ++ fb :: post2)
        = ("## Session " ++ l2 ++ " UTC") :: "" ::
            ((pre2 ++ fb :: post2).flatMap fileLines) from rfl]
    rw [List.cons_append]
    rw [calcLoop_stop root _ _ tgt _ _ _ true ffX
      (body_sessHdr_miss_found root _ p tgt l2 ffX (fun e => hT e.symm))]
  · rfl

theorem locator_scope_contract_witness :
    (calculateEditLineNumber (some "/root")
        (some (journalHeader ++ formatSummaryForJournal "A" [⟨"src/a.ts", [⟨"1", "x"⟩]⟩]
          ++ formatSummaryForJournal "B" [⟨"src/a.ts", [⟨"2", "y"⟩]⟩]))
        ⟨"2", "y"⟩ (some "Session B UTC") (some "src/a.ts") = some 11) ∧
    ((splitNl (journalHeader ++ formatSummaryForJournal "A" [⟨"src/a.ts", [⟨"1", "x"⟩]⟩]
        ++ formatSummaryForJournal "B" [⟨"src/a.ts", [⟨"2", "y"⟩]⟩]))[10]?
      = some (changeLine ⟨"2", "y"⟩)) ∧
    (calculateEditLineNumber (some "/root")
        (some (journalHeader ++ formatSummaryForJournal "A" [⟨"src/a.ts", [⟨"1", "x"⟩]⟩]
          ++ formatSummaryForJournal "B" [⟨"src/a.ts", [⟨"2", "y"⟩]⟩]))
        ⟨"2", "y"⟩ (some "Session A UTC") (some "src/a.ts") = none) ∧
    (calculateEditLineNumber (some "/root") none ⟨"2", "y"⟩
        (some "Session B UTC") (some "src/a.ts") = none) := by
  have h := locator_scope_contract (some "/root") "A" "B"
    [⟨"src/a.ts", [⟨"1", "x"⟩]⟩] [] [] ⟨"src/a.ts", [⟨"2", "y"⟩]⟩
    "src/a.ts" [] [] ⟨"2", "y"⟩
    (by decide) (by decide) (by decide) (by decide) (by decide)
    (by decide) (by decide) (by decide) (by decide)
  exact ⟨h.1.trans (by decide), h.2.1.trans (by decide), h.2.2.1, h.2.2.2⟩

end CodeJournal
